import Mathlib

/-!
Verification development for the AswaMithra polling dashboard repository.

The repository digitizes electoral-roll PDF pages into `Voter` records and
tracks per-voter poll status.  This file gives a shallow embedding of the
pure parts of the pipeline directly translated from the TypeScript source:

* the CSV export (`generateCSVContent`) and import (`processCSVText`,
  `parseCSVLine`) of the application root component;
* the in-memory store update `updateVoter`;
* the remote vision-model retry loop of `geminiService.extractVotersFromImage`
  (network requests and JSON decoding of the model response are abstracted
  as an `outcome` oracle, one per attempt; `Math.random()*500` jitter is
  abstracted as a `jitter` oracle);
* the regular-expression field extractors (`PATTERNS.NAME`, `RELATIVE`,
  `HOUSE`, `AGE_GENDER`, `EPIC`, and the header patterns), implemented as
  bespoke backtracking matchers faithful to JavaScript regex semantics
  (leftmost match, ordered alternation, greedy/lazy quantifiers) for these
  particular patterns;
* the anchor-based region windows and region clustering of the digital-text
  and image-OCR strategies;
* the local-fallback page batching of `processPdfLocally`.

Strings are modelled as `List Char` (`Str`); JavaScript numbers used as page
indices/timestamps are modelled as `Nat`, pixel/PDF coordinates as `ℚ`.
JavaScript `parseInt` is modelled for decimal inputs (`none` standing for
`NaN`; the legacy hex prefix is not modelled — it is unreachable from the
exporter's output).  `undefined`/`null` are modelled as `Option`.
-/

/-- Strings are modelled as lists of characters. -/
abbrev Str := List Char

/-- JavaScript whitespace (the set trimmed by `String.prototype.trim` and
matched by `\s`), restricted to the code points that can actually reach the
pipeline; includes the BOM and the Unicode line/paragraph separators. -/
def jsWs (c : Char) : Bool :=
  c == ' ' || c == '\t' || c == '\n' || c == '\r' || c == '\x0b' || c == '\x0c' ||
  c == '\u00A0' || c == '\uFEFF' || c == '\u2028' || c == '\u2029'

/-- Drop trailing JavaScript whitespace. -/
def dropTrailWs (s : Str) : Str := (s.reverse.dropWhile (fun c => jsWs c)).reverse

/-- JavaScript `String.prototype.trim`. -/
def jsTrim (s : Str) : Str := dropTrailWs (s.dropWhile (fun c => jsWs c))

/-- JavaScript `Array.prototype.join` with a separator string. -/
def jsJoin (sep : Str) : List Str → Str
  | [] => []
  | [x] => x
  | x :: y :: rest => x ++ sep ++ jsJoin sep (y :: rest)

/-- Split on `/\r\n|\n|\r/` as in `text.split(/\r\n|\n|\r/)`. -/
def splitLines : Str → List Str
  | [] => [[]]
  | [c] =>
    if c = '\r' ∨ c = '\n' then [[], []] else [[c]]
  | c :: c2 :: t =>
    if c = '\r' then
      if c2 = '\n' then [] :: splitLines t
      else [] :: splitLines (c2 :: t)
    else if c = '\n' then [] :: splitLines (c2 :: t)
    else
      match splitLines (c2 :: t) with
      | [] => [[c]]
      | l :: ls => (c :: l) :: ls

/-- ASCII decimal digit test (`[0-9]`, JavaScript `\d`). -/
def isDigit09 (c : Char) : Bool := '0' ≤ c && c ≤ '9'

/-- Uppercase ASCII letter test (`[A-Z]`). -/
def isUpperAZ (c : Char) : Bool := 'A' ≤ c && c ≤ 'Z'

/-- Lowercase ASCII letter test (`[a-z]`). -/
def isLowerAZ (c : Char) : Bool := 'a' ≤ c && c ≤ 'z'

/-- ASCII letter test (`[A-Za-z]`). -/
def isAlphaAZ (c : Char) : Bool := isUpperAZ c || isLowerAZ c

/-- Decimal representation of a natural number, as produced by JavaScript
number-to-string coercion for non-negative integers. -/
def natToStr (n : Nat) : Str :=
  if n = 0 then ['0']
  else ((Nat.digits 10 n).map (fun d => Char.ofNat (48 + d))).reverse

/-- Numeric value of a decimal digit character. -/
def digitVal (c : Char) : Nat := c.toNat - 48

/-- Accumulate the value of a most-significant-first digit string. -/
def foldDigits (acc : Nat) : Str → Nat
  | [] => acc
  | c :: t => foldDigits (10 * acc + digitVal c) t

/-- JavaScript `parseInt` for decimal inputs: skip leading whitespace, accept
an optional `+`, read the leading digit run; `none` models `NaN` (and also
stands in for negative results, which cannot arise from the exporter). -/
def jsParseIntNat (s : Str) : Option Nat :=
  let t := s.dropWhile (fun c => jsWs c)
  let t2 := if t.head? = some '+' then t.tail else t
  let ds := t2.takeWhile (fun c => isDigit09 c)
  if ds = [] then none else some (foldDigits 0 ds)

/-- Uppercase an ASCII character (JavaScript `toUpperCase`, ASCII range). -/
def toUpperAscii (c : Char) : Char :=
  if isLowerAZ c then Char.ofNat (c.toNat - 32) else c

/-- JavaScript `String.prototype.toUpperCase` restricted to ASCII. -/
def jsToUpper (s : Str) : Str := s.map toUpperAscii

/-- One digitized voter record (`Voter` of `types.ts`).  `photoBase64`,
`originalPage` and `timestamp` are optional in the source and modelled with
`Option`; `votedParty` is `string | null`. -/
structure Voter where
  sl_no : Str
  epic_no : Str
  name_en : Str
  name_te : Str
  relative_name : Str
  house_no : Str
  age : Str
  gender : Str
  assembly_name : Str
  parliament_name : Str
  polling_station_no : Str
  photoBase64 : Option Str
  originalPage : Option Nat
  isVoted : Bool
  votedParty : Option Str
  timestamp : Option Nat
deriving DecidableEq, Repr

/-- Double internal quotes, as in `.replace(/"/g, '""')`. -/
def quoteEsc (s : Str) : Str := s.flatMap (fun c => if c = '"' then ['"', '"'] else [c])

/-- Wrap a field in double quotes with internal quotes doubled. -/
def quoteField (s : Str) : Str := '"' :: (quoteEsc s ++ ['"'])

/-- Serialisation of the `Voted?` column: `v.isVoted ? 'YES' : 'NO'`. -/
def boolYN (b : Bool) : Str := if b then "YES".data else "NO".data

/-- Serialisation of the `Page No` column: `v.originalPage` under
`Array.prototype.join` (`undefined` joins as the empty string). -/
def pageCell : Option Nat → Str
  | none => []
  | some n => natToStr n

/-- Serialisation of the `Timestamp` column: `v.timestamp || ''`
(`undefined` and `0` are falsy). -/
def tsCell : Option Nat → Str
  | none => []
  | some n => if n = 0 then [] else natToStr n

/-- The fifteen cells of one CSV row, in the exporter's order. -/
def voterCells (v : Voter) : List Str :=
  [v.sl_no, v.epic_no, quoteField v.name_en, quoteField v.name_te,
   quoteField v.relative_name, quoteField v.house_no, v.age, v.gender,
   quoteField v.assembly_name, quoteField v.parliament_name,
   quoteField v.polling_station_no, boolYN v.isVoted, v.votedParty.getD [],
   pageCell v.originalPage, tsCell v.timestamp]

/-- One CSV data row (the cells joined with commas). -/
def voterRow (v : Voter) : Str := jsJoin [','] (voterCells v)

/-- The fixed header cells of the export format. -/
def csvHeaderCells : List Str :=
  ["Serial No".data, "EPIC No".data, "Name (English)".data, "Name (Telugu)".data,
   "Relation Name".data, "House No".data, "Age".data, "Gender".data, "Assembly".data,
   "Parliament".data, "Polling Station".data, "Voted?".data, "Party".data,
   "Page No".data, "Timestamp".data]

/-- The header line of the export format. -/
def csvHeader : Str := jsJoin [','] csvHeaderCells

/-- `generateCSVContent`: BOM, then the header line and one row per voter,
joined with `\n`. -/
def generateCSVContent (votersData : List Voter) : Str :=
  '\uFEFF' :: jsJoin ['\n'] (csvHeader :: votersData.map voterRow)

/-- Remove one trailing quote if present (the `"$` half of `/^"|"$/g`). -/
def stripTrailQuote (s : Str) : Str :=
  if s.getLast? = some '"' then s.dropLast else s

/-- `.replace(/^"|"$/g, '')`: remove one leading and one trailing quote. -/
def stripQuoteEnds (s : Str) : Str :=
  stripTrailQuote (if s.head? = some '"' then s.tail else s)

/-- `.replace(/""/g, '"')`: collapse doubled quotes. -/
def replaceDD : Str → Str
  | [] => []
  | [c] => [c]
  | c :: c2 :: t =>
    if c = '"' ∧ c2 = '"' then '"' :: replaceDD t
    else c :: replaceDD (c2 :: t)

/-- The per-column cleanup of `parseCSVLine`:
`.replace(/^"|"$/g, '').replace(/""/g, '"').trim()`. -/
def cleanCol (s : Str) : Str := jsTrim (replaceDD (stripQuoteEnds s))

/-- The character loop of `parseCSVLine`: `inQ` is the `inQuotes` flag and
`current` the accumulator for the cell being read. -/
def parseCSVLineAux (delimiter : Char) : Str → Bool → Str → List Str
  | [], _, current => [cleanCol current]
  | c :: rest, inQ, current =>
    if c = '"' then parseCSVLineAux delimiter rest (!inQ) current
    else if c = delimiter ∧ inQ = false then
      cleanCol current :: parseCSVLineAux delimiter rest inQ []
    else parseCSVLineAux delimiter rest inQ (current ++ [c])

/-- `parseCSVLine`: split one line into cleaned cells. -/
def parseCSVLine (str : Str) (delimiter : Char) : List Str :=
  parseCSVLineAux delimiter str false []

/-- Rebuild a `Voter` from the columns of one data row, with the importer's
defaults (`photoBase64` forced to `undefined`, `timestamp` never read). -/
def mkVoter (cols : List Str) : Voter :=
  { sl_no := cols.getD 0 []
    epic_no := cols.getD 1 []
    name_en := cols.getD 2 []
    name_te := cols.getD 3 []
    relative_name := cols.getD 4 []
    house_no := cols.getD 5 []
    age := cols.getD 6 []
    gender := cols.getD 7 []
    assembly_name := cols.getD 8 []
    parliament_name := cols.getD 9 []
    polling_station_no := cols.getD 10 []
    photoBase64 := none
    originalPage := (if cols.getD 13 [] = [] then some 0 else jsParseIntNat (cols.getD 13 []))
    isVoted := decide (jsToUpper (cols.getD 11 []) = "YES".data)
    votedParty := (let c := cols.getD 12 []
                   if c ≠ [] ∧ c ≠ "null".data then some c else none)
    timestamp := none }

/-- `processCSVText`: strip the BOM, split and filter blank lines, require a
header plus at least one data row, sniff the delimiter from the header line,
parse each data row (skipping rows with fewer than 3 columns), and fail if no
voter was parsed.  A thrown `Error` is modelled as `Except.error` carrying the
message; `Except.ok` models the committed collection (`setVoters`). -/
def processCSVText (text : Str) : Except Str (List Voter) :=
  let t := if text.head? = some '\uFEFF' then text.tail else text
  let lines := (splitLines t).filter (fun l => (jsTrim l).length > 0)
  if lines.length < 2 then
    Except.error "Data appears to be empty or missing headers.".data
  else
    let firstLine := lines.getD 0 []
    let delimiter := if ';' ∈ firstLine then ';' else ','
    let dataLines := lines.drop 1
    let loadedVoters := dataLines.filterMap (fun line =>
      let cols := parseCSVLine line delimiter
      if cols.length < 3 then none else some (mkVoter cols))
    if loadedVoters = [] then Except.error "No valid voter records parsed.".data
    else Except.ok loadedVoters

/-- `updateVoter`: replace every stored record whose `epic_no` equals the
updated record's `epic_no` (`prevVoters.map(v => v.epic_no === updatedVoter.epic_no ? updatedVoter : v)`). -/
def updateVoter (updatedVoter : Voter) (prevVoters : List Voter) : List Voter :=
  prevVoters.map (fun v => if v.epic_no = updatedVoter.epic_no then updatedVoter else v)

/-- A CSV-benign field: no quote, comma, or line terminator, and no leading
or trailing JavaScript whitespace (the importer trims each cell). -/
def ValidField (s : Str) : Prop :=
  '"' ∉ s ∧ ',' ∉ s ∧ '\n' ∉ s ∧ '\r' ∉ s ∧ jsTrim s = s

instance (s : Str) : Decidable (ValidField s) := by
  unfold ValidField; infer_instance

/-- Validity of the `votedParty` value: the exporter writes `v.votedParty || ''`
and the importer turns `''` and the literal `'null'` into `null`, so only a
non-empty party string different from `"null"` survives a round trip. -/
def ValidParty : Option Str → Prop
  | none => True
  | some p => ValidField p ∧ p ≠ [] ∧ p ≠ "null".data

instance (o : Option Str) : Decidable (ValidParty o) :=
  match o with
  | none => isTrue trivial
  | some p => inferInstanceAs (Decidable (ValidField p ∧ p ≠ [] ∧ p ≠ "null".data))

/-- A valid voter record: every text field is CSV-benign, the party value
survives the exporter's falsy-coercion, and the source page is present. -/
def ValidVoter (v : Voter) : Prop :=
  ValidField v.sl_no ∧ ValidField v.epic_no ∧ ValidField v.name_en ∧
  ValidField v.name_te ∧ ValidField v.relative_name ∧ ValidField v.house_no ∧
  ValidField v.age ∧ ValidField v.gender ∧ ValidField v.assembly_name ∧
  ValidField v.parliament_name ∧ ValidField v.polling_station_no ∧
  ValidParty v.votedParty ∧ v.originalPage.isSome = true

instance (v : Voter) : Decidable (ValidVoter v) := by
  unfold ValidVoter; infer_instance

/-- The two fields the CSV round trip cannot restore: the photo is never
written and the timestamp column is written but never read back. -/
def scrubTransient (v : Voter) : Voter :=
  { v with photoBase64 := none, timestamp := none }

lemma dropWhile_eq_self_of_all {p : Char → Bool} {s : Str}
    (h : ∀ c ∈ s, p c = false) : s.dropWhile p = s := by
  cases s with
  | nil => rfl
  | cons c t => simp [List.dropWhile_cons, h c (by simp)]

lemma takeWhile_eq_self_of_all {p : Char → Bool} {s : Str}
    (h : ∀ c ∈ s, p c = true) : s.takeWhile p = s := by
  induction s with
  | nil => rfl
  | cons c t ih =>
    simp [List.takeWhile_cons, h c (by simp), ih (fun c hc => h c (by simp [hc]))]

lemma jsTrim_of_all_not_ws {s : Str} (h : ∀ c ∈ s, jsWs c = false) : jsTrim s = s := by
  unfold jsTrim dropTrailWs
  rw [dropWhile_eq_self_of_all h, dropWhile_eq_self_of_all (by simpa using fun c hc => h c hc),
    List.reverse_reverse]

lemma stripTrailQuote_of_not_mem {s : Str} (h : '"' ∉ s) : stripTrailQuote s = s := by
  unfold stripTrailQuote
  have h2 : ¬ s.getLast? = some '"' := by
    intro hc
    obtain ⟨hne, heq⟩ := List.mem_getLast?_eq_getLast (Option.mem_def.mpr hc)
    exact h (heq ▸ List.getLast_mem hne)
  rw [if_neg h2]

lemma stripQuoteEnds_of_not_mem {s : Str} (h : '"' ∉ s) : stripQuoteEnds s = s := by
  unfold stripQuoteEnds
  have h1 : ¬ s.head? = some '"' := by
    intro hc
    cases s with
    | nil => simp at hc
    | cons c t => simp at hc; exact h (by simp [hc])
  rw [if_neg h1, stripTrailQuote_of_not_mem h]

lemma replaceDD_of_not_mem : ∀ {s : Str}, '"' ∉ s → replaceDD s = s
  | [], _ => rfl
  | [_], _ => rfl
  | c :: c2 :: t, h => by
    have hc : ¬ (c = '"' ∧ c2 = '"') := by
      rintro ⟨rfl, -⟩; exact h (by simp)
    rw [replaceDD, if_neg hc, replaceDD_of_not_mem (fun hm => h (by simp [hm]))]

lemma cleanCol_of_benign {s : Str} (hq : '"' ∉ s) (ht : jsTrim s = s) :
    cleanCol s = s := by
  unfold cleanCol
  rw [stripQuoteEnds_of_not_mem hq, replaceDD_of_not_mem hq, ht]

lemma parseCSVLineAux_seg_false {d : Char} {s : Str} (r cur : Str)
    (h : ∀ c ∈ s, c ≠ '"' ∧ c ≠ d) :
    parseCSVLineAux d (s ++ r) false cur = parseCSVLineAux d r false (cur ++ s) := by
  induction s generalizing cur with
  | nil => simp
  | cons c t ih =>
    obtain ⟨hc1, hc2⟩ := h c (by simp)
    simp only [List.cons_append, parseCSVLineAux, List.append_eq]
    rw [if_neg hc1, if_neg (by simp [hc2])]
    rw [ih (cur ++ [c]) (fun c hc => h c (by simp [hc]))]
    simp

lemma parseCSVLineAux_seg_true {d : Char} {s : Str} (r cur : Str)
    (h : '"' ∉ s) :
    parseCSVLineAux d (s ++ r) true cur = parseCSVLineAux d r true (cur ++ s) := by
  induction s generalizing cur with
  | nil => simp
  | cons c t ih =>
    have hc1 : c ≠ '"' := fun hc => h (by simp [hc])
    simp only [List.cons_append, parseCSVLineAux, List.append_eq]
    rw [if_neg hc1, if_neg (by simp)]
    rw [ih (cur ++ [c]) (fun hm => h (by simp [hm]))]
    simp

lemma parseCSVLineAux_field_comma {d : Char} {s : Str} (r cur : Str)
    (h : ∀ c ∈ s, c ≠ '"' ∧ c ≠ d) (hd : d ≠ '"') :
    parseCSVLineAux d (s ++ d :: r) false cur
      = cleanCol (cur ++ s) :: parseCSVLineAux d r false [] := by
  rw [parseCSVLineAux_seg_false (d :: r) cur h]
  simp only [parseCSVLineAux]
  rw [if_neg hd, if_pos (by simp)]

lemma parseCSVLineAux_quoted_comma {d : Char} {s : Str} (r cur : Str)
    (h : '"' ∉ s) (hd : d ≠ '"') :
    parseCSVLineAux d ('"' :: (s ++ '"' :: d :: r)) false cur
      = cleanCol (cur ++ s) :: parseCSVLineAux d r false [] := by
  have step1 : parseCSVLineAux d ('"' :: (s ++ '"' :: d :: r)) false cur
      = parseCSVLineAux d (s ++ '"' :: d :: r) true cur := by
    simp [parseCSVLineAux]
  rw [step1, parseCSVLineAux_seg_true ('"' :: d :: r) cur h]
  have step2 : parseCSVLineAux d ('"' :: d :: r) true (cur ++ s)
      = parseCSVLineAux d (d :: r) false (cur ++ s) := by
    simp [parseCSVLineAux]
  rw [step2]
  simp only [parseCSVLineAux]
  rw [if_neg hd, if_pos (by simp)]

lemma parseCSVLineAux_field_end {d : Char} {s : Str} (cur : Str)
    (h : ∀ c ∈ s, c ≠ '"' ∧ c ≠ d) :
    parseCSVLineAux d s false cur = [cleanCol (cur ++ s)] := by
  rw [← List.append_nil s, parseCSVLineAux_seg_false [] cur h]
  simp [parseCSVLineAux]

lemma parseCSVLineAux_quoted_end {d : Char} {s : Str} (cur : Str)
    (h : '"' ∉ s) :
    parseCSVLineAux d ('"' :: (s ++ ['"'])) false cur = [cleanCol (cur ++ s)] := by
  have step1 : parseCSVLineAux d ('"' :: (s ++ ['"'])) false cur
      = parseCSVLineAux d (s ++ ['"']) true cur := by
    simp [parseCSVLineAux]
  rw [step1, parseCSVLineAux_seg_true ['"'] cur h]
  simp [parseCSVLineAux]

/-- Relation between an encoded CSV cell and the value the importer's line
parser recovers for it: either an unquoted benign cell or a quoted cell. -/
inductive CellEnc (d : Char) : Str → Str → Prop
  | unq (s : Str) (h : ∀ c ∈ s, c ≠ '"' ∧ c ≠ d) (hclean : cleanCol s = s) :
      CellEnc d s s
  | quoted (s : Str) (h : '"' ∉ s) (hclean : cleanCol s = s) :
      CellEnc d ('"' :: (s ++ ['"'])) s

lemma parse_cells {d : Char} (hd : d ≠ '"') :
    ∀ {encs vals : List Str}, List.Forall₂ (CellEnc d) encs vals → encs ≠ [] →
      parseCSVLineAux d (jsJoin [d] encs) false [] = vals := by
  intro encs
  induction encs with
  | nil => intro vals _ hne; exact absurd rfl hne
  | cons e es ih =>
    intro vals hf _
    rcases hf with _ | ⟨he, hes⟩
    rename_i v vs
    cases es with
    | nil =>
      rcases hes with _ | _
      show parseCSVLineAux d e false [] = [v]
      rcases he with ⟨_, h, hclean⟩ | ⟨_, h, hclean⟩
      · rw [parseCSVLineAux_field_end [] h]; simp [hclean]
      · rw [parseCSVLineAux_quoted_end [] h]; simp [hclean]
    | cons e2 es2 =>
      have hvs : vs ≠ [] := by
        rcases hes with _ | _
        simp
      have hjoin : jsJoin [d] (e :: e2 :: es2) = e ++ d :: jsJoin [d] (e2 :: es2) := by
        simp [jsJoin]
      rw [hjoin]
      rcases he with ⟨_, h, hclean⟩ | ⟨_, h, hclean⟩
      · rw [parseCSVLineAux_field_comma _ [] h hd]
        rw [ih hes (by simp)]
        simp [hclean]
      · have : ('"' :: (v ++ ['"'])) ++ d :: jsJoin [d] (e2 :: es2)
            = '"' :: (v ++ '"' :: d :: jsJoin [d] (e2 :: es2)) := by simp
        rw [this, parseCSVLineAux_quoted_comma _ [] h hd]
        rw [ih hes (by simp)]
        simp [hclean]

lemma digitChar_spec {d : Nat} (hd : d < 10) :
    isDigit09 (Char.ofNat (48 + d)) = true ∧ jsWs (Char.ofNat (48 + d)) = false ∧
    digitVal (Char.ofNat (48 + d)) = d ∧ Char.ofNat (48 + d) ≠ '"' ∧
    Char.ofNat (48 + d) ≠ ',' ∧ Char.ofNat (48 + d) ≠ '\n' ∧
    Char.ofNat (48 + d) ≠ '\r' ∧ Char.ofNat (48 + d) ≠ '+' := by
  interval_cases d <;> exact ⟨by decide, by decide, by decide, by decide,
    by decide, by decide, by decide, by decide⟩

lemma natToStr_mem {n : Nat} {c : Char} (hc : c ∈ natToStr n) :
    isDigit09 c = true ∧ jsWs c = false ∧ c ≠ '"' ∧ c ≠ ',' ∧
    c ≠ '\n' ∧ c ≠ '\r' ∧ c ≠ '+' := by
  unfold natToStr at hc
  by_cases h0 : n = 0
  · rw [if_pos h0] at hc
    simp at hc
    subst hc
    exact ⟨by decide, by decide, by decide, by decide, by decide, by decide, by decide⟩
  · rw [if_neg h0] at hc
    rw [List.mem_reverse, List.mem_map] at hc
    obtain ⟨d, hd, rfl⟩ := hc
    have hlt : d < 10 := Nat.digits_lt_base (by norm_num) hd
    obtain ⟨h1, h2, _, h4, h5, h6, h7, h8⟩ := digitChar_spec hlt
    exact ⟨h1, h2, h4, h5, h6, h7, h8⟩

lemma natToStr_ne_nil (n : Nat) : natToStr n ≠ [] := by
  unfold natToStr
  by_cases h0 : n = 0
  · simp [h0]
  · rw [if_neg h0]
    simp [Nat.digits_ne_nil_iff_ne_zero.mpr h0]

lemma foldDigits_append (acc : Nat) (X : Str) (y : Char) :
    foldDigits acc (X ++ [y]) = 10 * foldDigits acc X + digitVal y := by
  induction X generalizing acc with
  | nil => rfl
  | cons c t ih =>
    rw [List.cons_append]
    show foldDigits (10 * acc + digitVal c) (t ++ [y])
      = 10 * foldDigits (10 * acc + digitVal c) t + digitVal y
    exact ih _

lemma foldDigits_ofDigits (ds : List Nat) (h : ∀ d ∈ ds, d < 10) (acc : Nat) :
    foldDigits acc ((ds.map (fun d => Char.ofNat (48 + d))).reverse)
      = acc * 10 ^ ds.length + Nat.ofDigits 10 ds := by
  induction ds generalizing acc with
  | nil =>
    show acc = acc * 10 ^ 0 + Nat.ofDigits 10 []
    rw [Nat.ofDigits_nil]
    ring
  | cons d ds ih =>
    rw [List.map_cons, List.reverse_cons, foldDigits_append,
      ih (fun d hd => h d (by simp [hd])),
      (digitChar_spec (h d (by simp))).2.2.1, Nat.ofDigits_cons,
      List.length_cons]
    ring

lemma jsParseIntNat_natToStr (n : Nat) : jsParseIntNat (natToStr n) = some n := by
  by_cases h0 : n = 0
  · subst h0; decide
  · have hall : ∀ c ∈ natToStr n, isDigit09 c = true ∧ jsWs c = false ∧ c ≠ '"' ∧
        c ≠ ',' ∧ c ≠ '\n' ∧ c ≠ '\r' ∧ c ≠ '+' := fun c hc => natToStr_mem hc
    unfold jsParseIntNat
    dsimp only
    rw [dropWhile_eq_self_of_all (fun c hc => (hall c hc).2.1)]
    have hplus : ¬ (natToStr n).head? = some '+' := by
      intro hc
      cases hs : natToStr n with
      | nil => exact natToStr_ne_nil n hs
      | cons c t =>
        rw [hs] at hc
        simp at hc
        exact (hall c (by rw [hs]; simp)).2.2.2.2.2.2 hc
    rw [if_neg hplus]
    rw [takeWhile_eq_self_of_all (fun c hc => (hall c hc).1)]
    rw [if_neg (natToStr_ne_nil n)]
    unfold natToStr
    rw [if_neg h0]
    rw [foldDigits_ofDigits _ (fun d hd => Nat.digits_lt_base (by norm_num) hd) 0]
    simp [Nat.ofDigits_digits]

lemma splitLines_no_term : ∀ {l : Str}, (∀ c ∈ l, c ≠ '\n' ∧ c ≠ '\r') → splitLines l = [l]
  | [], _ => rfl
  | [c], h => by
    obtain ⟨h1, h2⟩ := h c (by simp)
    rw [splitLines, if_neg (by simp [h1, h2])]
  | c :: c2 :: t, h => by
    obtain ⟨h1, h2⟩ := h c (by simp)
    rw [splitLines, if_neg h2, if_neg h1,
      splitLines_no_term (fun x hx => h x (by simp [hx]))]

lemma splitLines_cons_nl (r : Str) : splitLines ('\n' :: r) = [] :: splitLines r := by
  cases r with
  | nil => decide
  | cons c2 t2 => rw [splitLines, if_neg (by decide), if_pos rfl]

lemma splitLines_append_nl : ∀ {l : Str} (r : Str), (∀ c ∈ l, c ≠ '\n' ∧ c ≠ '\r') →
    splitLines (l ++ '\n' :: r) = l :: splitLines r
  | [], r, _ => by simpa using splitLines_cons_nl r
  | [c], r, h => by
    obtain ⟨h1, h2⟩ := h c (by simp)
    simp only [List.cons_append, List.nil_append]
    rw [splitLines, if_neg h2, if_neg h1, splitLines_cons_nl r]
  | c :: c2 :: t, r, h => by
    obtain ⟨h1, h2⟩ := h c (by simp)
    show splitLines (c :: c2 :: (t ++ '\n' :: r)) = (c :: c2 :: t) :: splitLines r
    rw [splitLines, if_neg h2, if_neg h1, ← List.cons_append,
      splitLines_append_nl r (fun x hx => h x (by simp [hx]))]

lemma splitLines_jsJoin : ∀ {ls : List Str}, ls ≠ [] →
    (∀ l ∈ ls, ∀ c ∈ l, c ≠ '\n' ∧ c ≠ '\r') →
    splitLines (jsJoin ['\n'] ls) = ls
  | [], hne, _ => absurd rfl hne
  | [x], _, h => by
    show splitLines x = [x]
    exact splitLines_no_term (h x (by simp))
  | x :: y :: rest, _, h => by
    rw [jsJoin, List.append_assoc, List.singleton_append,
      splitLines_append_nl _ (h x (by simp)),
      splitLines_jsJoin (by simp) (fun l hl => h l (by simp [hl]))]

lemma jsTrim_ne_nil_of_mem {s : Str} {c : Char} (hc : c ∈ s) (hw : jsWs c = false) :
    jsTrim s ≠ [] := by
  intro hnil
  unfold jsTrim dropTrailWs at hnil
  rw [List.reverse_eq_nil_iff, List.dropWhile_eq_nil_iff] at hnil
  have hc' : c ∈ s.dropWhile (fun c => jsWs c) := by
    rcases List.mem_append.mp
        ((List.takeWhile_append_dropWhile (p := fun c => jsWs c) (l := s)) ▸ hc) with h | h
    · exact absurd (List.mem_takeWhile_imp h) (by simp [hw])
    · exact h
  exact absurd (hnil c (by simpa using hc')) (by simp [hw])

lemma comma_mem_jsJoin (x y : Str) (rest : List Str) :
    ',' ∈ jsJoin [','] (x :: y :: rest) := by
  rw [jsJoin]
  simp

lemma quoteEsc_of_not_mem : ∀ {s : Str}, '"' ∉ s → quoteEsc s = s
  | [], _ => rfl
  | c :: t, h => by
    have hc : c ≠ '"' := fun he => h (by simp [he])
    show (if c = '"' then ['"', '"'] else [c]) ++ quoteEsc t = c :: t
    rw [if_neg hc, quoteEsc_of_not_mem (fun hm => h (by simp [hm]))]
    rfl

lemma validField_cellEnc_unq {s : Str} (h : ValidField s) : CellEnc ',' s s :=
  CellEnc.unq s (fun c hc => ⟨fun he => h.1 (he ▸ hc), fun he => h.2.1 (he ▸ hc)⟩)
    (cleanCol_of_benign h.1 h.2.2.2.2)

lemma validField_cellEnc_quoted {s : Str} (h : ValidField s) :
    CellEnc ',' (quoteField s) s := by
  unfold quoteField
  rw [quoteEsc_of_not_mem h.1]
  exact CellEnc.quoted s h.1 (cleanCol_of_benign h.1 h.2.2.2.2)

lemma validField_natToStr (n : Nat) : ValidField (natToStr n) := by
  refine ⟨fun hm => ?_, fun hm => ?_, fun hm => ?_, fun hm => ?_,
    jsTrim_of_all_not_ws (fun c hc => (natToStr_mem hc).2.1)⟩
  · exact (natToStr_mem hm).2.2.1 rfl
  · exact (natToStr_mem hm).2.2.2.1 rfl
  · exact (natToStr_mem hm).2.2.2.2.1 rfl
  · exact (natToStr_mem hm).2.2.2.2.2.1 rfl

lemma validField_nil : ValidField ([] : Str) := by decide

lemma validField_pageCell (o : Option Nat) : ValidField (pageCell o) := by
  cases o with
  | none => exact validField_nil
  | some n => exact validField_natToStr n

lemma validField_tsCell (o : Option Nat) : ValidField (tsCell o) := by
  cases o with
  | none => exact validField_nil
  | some n =>
    show ValidField (if n = 0 then [] else natToStr n)
    split
    · exact validField_nil
    · exact validField_natToStr n

lemma validField_boolYN (b : Bool) : ValidField (boolYN b) := by
  cases b <;> decide

lemma validField_partyCell {o : Option Str} (h : ValidParty o) :
    ValidField (o.getD []) := by
  cases o with
  | none => exact validField_nil
  | some p => exact h.1

lemma parseCSVLine_voterRow (v : Voter) (hv : ValidVoter v) :
    parseCSVLine (voterRow v) ',' =
      [v.sl_no, v.epic_no, v.name_en, v.name_te, v.relative_name, v.house_no,
       v.age, v.gender, v.assembly_name, v.parliament_name, v.polling_station_no,
       boolYN v.isVoted, v.votedParty.getD [], pageCell v.originalPage,
       tsCell v.timestamp] := by
  obtain ⟨h1, h2, h3, h4, h5, h6, h7, h8, h9, h10, h11, h12, h13⟩ := hv
  unfold parseCSVLine voterRow voterCells
  refine parse_cells (by decide) ?_ (by simp)
  exact .cons (validField_cellEnc_unq h1) (.cons (validField_cellEnc_unq h2)
    (.cons (validField_cellEnc_quoted h3) (.cons (validField_cellEnc_quoted h4)
    (.cons (validField_cellEnc_quoted h5) (.cons (validField_cellEnc_quoted h6)
    (.cons (validField_cellEnc_unq h7) (.cons (validField_cellEnc_unq h8)
    (.cons (validField_cellEnc_quoted h9) (.cons (validField_cellEnc_quoted h10)
    (.cons (validField_cellEnc_quoted h11)
    (.cons (validField_cellEnc_unq (validField_boolYN v.isVoted))
    (.cons (validField_cellEnc_unq (validField_partyCell h12))
    (.cons (validField_cellEnc_unq (validField_pageCell v.originalPage))
    (.cons (validField_cellEnc_unq (validField_tsCell v.timestamp)) .nil))))))))))))))

lemma isVoted_roundtrip (b : Bool) : decide (jsToUpper (boolYN b) = "YES".data) = b := by
  cases b <;> decide

lemma party_roundtrip {o : Option Str} (h : ValidParty o) :
    (if (o.getD []) ≠ [] ∧ (o.getD []) ≠ "null".data then some (o.getD []) else none) = o := by
  cases o with
  | none => simp
  | some p => simp [h.2.1, h.2.2]

lemma page_roundtrip {o : Option Nat} (h : o.isSome = true) :
    (if pageCell o = [] then some 0 else jsParseIntNat (pageCell o)) = o := by
  cases o with
  | none => simp at h
  | some n =>
    rw [if_neg (by simpa [pageCell] using natToStr_ne_nil n)]
    exact jsParseIntNat_natToStr n

lemma mkVoter_cells (v : Voter) (hv : ValidVoter v) :
    mkVoter [v.sl_no, v.epic_no, v.name_en, v.name_te, v.relative_name, v.house_no,
      v.age, v.gender, v.assembly_name, v.parliament_name, v.polling_station_no,
      boolYN v.isVoted, v.votedParty.getD [], pageCell v.originalPage,
      tsCell v.timestamp] = scrubTransient v := by
  obtain ⟨h1, h2, h3, h4, h5, h6, h7, h8, h9, h10, h11, h12, h13⟩ := hv
  unfold mkVoter scrubTransient
  simp only [List.getD_cons_zero, List.getD_cons_succ]
  rw [Voter.mk.injEq]
  refine ⟨rfl, rfl, rfl, rfl, rfl, rfl, rfl, rfl, rfl, rfl, rfl, rfl, ?_, ?_, ?_, rfl⟩
  · exact page_roundtrip h13
  · exact isVoted_roundtrip v.isVoted
  · exact party_roundtrip h12

lemma jsJoin_mem_cases : ∀ {sep : Str} {ls : List Str} {c : Char},
    c ∈ jsJoin sep ls → c ∈ sep ∨ ∃ l ∈ ls, c ∈ l
  | _, [], _, hc => by simp [jsJoin] at hc
  | sep, [x], c, hc => Or.inr ⟨x, by simp, hc⟩
  | sep, x :: y :: rest, c, hc => by
    rw [jsJoin] at hc
    rcases List.mem_append.mp hc with h | h
    · rcases List.mem_append.mp h with h | h
      · exact Or.inr ⟨x, by simp, h⟩
      · exact Or.inl h
    · rcases jsJoin_mem_cases h with h | ⟨l, hl, hcl⟩
      · exact Or.inl h
      · exact Or.inr ⟨l, by simp [hl], hcl⟩

lemma voterCells_classify {v : Voter} (hv : ValidVoter v) :
    ∀ cell ∈ voterCells v, ValidField cell ∨ ∃ f, ValidField f ∧ cell = quoteField f := by
  obtain ⟨h1, h2, h3, h4, h5, h6, h7, h8, h9, h10, h11, h12, h13⟩ := hv
  intro cell hcellmem
  unfold voterCells at hcellmem
  simp only [List.mem_cons, List.not_mem_nil, or_false] at hcellmem
  rcases hcellmem with rfl | rfl | rfl | rfl | rfl | rfl | rfl | rfl | rfl | rfl | rfl | rfl | rfl | rfl | rfl
  · exact Or.inl h1
  · exact Or.inl h2
  · exact Or.inr ⟨_, h3, rfl⟩
  · exact Or.inr ⟨_, h4, rfl⟩
  · exact Or.inr ⟨_, h5, rfl⟩
  · exact Or.inr ⟨_, h6, rfl⟩
  · exact Or.inl h7
  · exact Or.inl h8
  · exact Or.inr ⟨_, h9, rfl⟩
  · exact Or.inr ⟨_, h10, rfl⟩
  · exact Or.inr ⟨_, h11, rfl⟩
  · exact Or.inl (validField_boolYN v.isVoted)
  · exact Or.inl (validField_partyCell h12)
  · exact Or.inl (validField_pageCell v.originalPage)
  · exact Or.inl (validField_tsCell v.timestamp)

lemma validVoter_row_no_term {v : Voter} (hv : ValidVoter v) :
    ∀ c ∈ voterRow v, c ≠ '\n' ∧ c ≠ '\r' := by
  intro c hc
  unfold voterRow at hc
  rcases jsJoin_mem_cases hc with hsep | ⟨cell, hcell, hcc⟩
  · simp only [List.mem_singleton] at hsep
    subst hsep
    exact ⟨by decide, by decide⟩
  · rcases voterCells_classify ⟨hv.1, hv.2.1, hv.2.2.1, hv.2.2.2.1, hv.2.2.2.2.1,
        hv.2.2.2.2.2.1, hv.2.2.2.2.2.2.1, hv.2.2.2.2.2.2.2.1, hv.2.2.2.2.2.2.2.2.1,
        hv.2.2.2.2.2.2.2.2.2.1, hv.2.2.2.2.2.2.2.2.2.2.1, hv.2.2.2.2.2.2.2.2.2.2.2.1,
        hv.2.2.2.2.2.2.2.2.2.2.2.2⟩ cell hcell with hf | ⟨f, hf, rfl⟩
    · exact ⟨fun he => hf.2.2.1 (he ▸ hcc), fun he => hf.2.2.2.1 (he ▸ hcc)⟩
    · unfold quoteField at hcc
      rw [quoteEsc_of_not_mem hf.1] at hcc
      rcases List.mem_cons.mp hcc with rfl | hcc2
      · exact ⟨by decide, by decide⟩
      · rcases List.mem_append.mp hcc2 with hin | hone
        · exact ⟨fun he => hf.2.2.1 (he ▸ hin), fun he => hf.2.2.2.1 (he ▸ hin)⟩
        · simp only [List.mem_singleton] at hone
          subst hone
          exact ⟨by decide, by decide⟩
lemma filterMap_map_eq_map {α β γ : Type} (l : List α) (f : α → β) (g : β → Option γ)
    (k : α → γ) (h : ∀ a ∈ l, g (f a) = some (k a)) :
    (l.map f).filterMap g = l.map k := by
  induction l with
  | nil => rfl
  | cons a t ih =>
    rw [List.map_cons, List.filterMap_cons, h a (by simp), List.map_cons,
      ih (fun a ha => h a (by simp [ha]))]

set_option maxRecDepth 8000 in
theorem processCSV_generateCSV (vs : List Voter) (hne : vs ≠ [])
    (hval : ∀ v ∈ vs, ValidVoter v) :
    processCSVText (generateCSVContent vs) = Except.ok (vs.map scrubTransient) := by
  have hsplit : splitLines (jsJoin ['\n'] (csvHeader :: vs.map voterRow))
      = csvHeader :: vs.map voterRow := by
    refine splitLines_jsJoin (by simp) ?_
    intro l hl
    rcases List.mem_cons.mp hl with rfl | hl2
    · decide
    · rw [List.mem_map] at hl2
      obtain ⟨v, hv, rfl⟩ := hl2
      exact validVoter_row_no_term (hval v hv)
  have hfilter : (csvHeader :: vs.map voterRow).filter
      (fun l => decide ((jsTrim l).length > 0)) = csvHeader :: vs.map voterRow := by
    apply List.filter_eq_self.mpr
    intro l hl
    rcases List.mem_cons.mp hl with rfl | hl2
    · decide
    · rw [List.mem_map] at hl2
      obtain ⟨v, hv, rfl⟩ := hl2
      have hcm : ',' ∈ voterRow v := by
        unfold voterRow voterCells
        exact comma_mem_jsJoin _ _ _
      have := jsTrim_ne_nil_of_mem hcm (by decide)
      simpa [List.length_pos] using this
  unfold generateCSVContent processCSVText
  dsimp only
  simp only [List.head?_cons, List.tail_cons, reduceIte]
  rw [hsplit, hfilter]
  rw [if_neg (by
    have h0 : 0 < vs.length := List.length_pos.mpr hne
    simp only [List.length_cons, List.length_map]
    omega)]
  simp only [List.getD_cons_zero, List.drop_succ_cons, List.drop_zero]
  have hdelim : (if ';' ∈ csvHeader then ';' else ',') = ',' := by
    rw [if_neg (by decide)]
  rw [hdelim]
  rw [filterMap_map_eq_map vs voterRow _ scrubTransient ?_]
  · rw [if_neg (by simp [hne])]
  · intro v hv
    rw [if_neg (by rw [parseCSVLine_voterRow v (hval v hv)]; simp)]
    rw [parseCSVLine_voterRow v (hval v hv), mkVoter_cells v (hval v hv)]
/-- A concrete voter whose timestamp is set: used to exhibit the failure of
the round-trip claim as stated. -/
def cexVoter : Voter :=
  { sl_no := "1".data, epic_no := "ABC1234567".data, name_en := "John Doe".data,
    name_te := [], relative_name := "Bob".data, house_no := "1-2".data,
    age := "44".data, gender := "M".data, assembly_name := "Foo".data,
    parliament_name := "Bar".data, polling_station_no := "PS 1".data,
    photoBase64 := none, originalPage := some 3, isVoted := true,
    votedParty := some "INC".data, timestamp := some 5 }

/-- C1 (counterexample): the round trip is NOT the identity up to the photo
field alone.  `cexVoter` is a valid record whose photo field is already
absent, yet re-importing its export does not return it: the timestamp is
written to the CSV but never read back. -/
theorem C1_counterexample :
    ValidVoter cexVoter ∧ cexVoter.photoBase64 = none ∧
    processCSVText (generateCSVContent [cexVoter])
      = Except.ok [scrubTransient cexVoter] ∧
    scrubTransient cexVoter ≠ cexVoter ∧
    (scrubTransient cexVoter).timestamp = none ∧ cexVoter.timestamp = some 5 :=
  ⟨by decide, rfl,
   (by
     have h := processCSV_generateCSV [cexVoter] (by simp)
       (fun v hv => by rw [List.mem_singleton] at hv; subst hv; decide)
     simpa using h),
   by decide, rfl, rfl⟩

/-- C1 (amended): for a non-empty collection of valid voters, exporting with
`generateCSVContent` and re-importing with `processCSVText` restores every
record on all fields except `photoBase64` (never written) and `timestamp`
(written to the last column but never read back by the importer). -/
theorem C1_roundtrip_amended (vs : List Voter) (hne : vs ≠ [])
    (hval : ∀ v ∈ vs, ValidVoter v) :
    processCSVText (generateCSVContent vs) = Except.ok (vs.map scrubTransient) :=
  processCSV_generateCSV vs hne hval

/-- C1 (witness): the amended round trip applied to a concrete collection. -/
theorem C1_witness :
    ([cexVoter] ≠ [] ∧ ∀ v ∈ [cexVoter], ValidVoter v) ∧
    processCSVText (generateCSVContent [cexVoter])
      = Except.ok ([cexVoter].map scrubTransient) :=
  ⟨⟨by simp, fun v hv => by rw [List.mem_singleton] at hv; subst hv; decide⟩,
   C1_roundtrip_amended [cexVoter] (by simp)
     (fun v hv => by rw [List.mem_singleton] at hv; subst hv; decide)⟩
set_option maxRecDepth 100000 in
/-- C7: the importer rejects any input that, after BOM stripping and blank-line
filtering, has fewer than two lines (in particular a file with only the header
line) with the named empty/missing-headers error; and it never commits an
empty collection: a successful result always carries at least one voter, so
either the whole parse result is committed or the operation fails entirely. -/
theorem C7_import_rejects_header_only :
    (∀ text : Str,
      ((splitLines (if text.head? = some '﻿' then text.tail else text)).filter
          (fun l => decide ((jsTrim l).length > 0))).length < 2 →
      processCSVText text = Except.error "Data appears to be empty or missing headers.".data) ∧
    processCSVText csvHeader
      = Except.error "Data appears to be empty or missing headers.".data ∧
    (∀ (text : Str) (l : List Voter), processCSVText text = Except.ok l → l ≠ []) := by
  refine ⟨?_, ?_, ?_⟩
  · intro text h
    unfold processCSVText
    dsimp only
    rw [if_pos h]
  · show processCSVText csvHeader = _
    rfl
  · intro text l h
    unfold processCSVText at h
    dsimp only at h
    repeat' split at h
    all_goals
      first
        | exact Except.noConfusion h
        | (rename_i hne
           rw [Except.ok.injEq] at h
           intro hl
           exact hne (h.trans hl))

set_option maxRecDepth 100000 in
/-- C7 (witness): the rejection and non-empty-commit facts at concrete inputs. -/
theorem C7_witness :
    (((splitLines (if csvHeader.head? = some '﻿' then csvHeader.tail else csvHeader)).filter
        (fun l => decide ((jsTrim l).length > 0))).length < 2 ∧
      processCSVText csvHeader
        = Except.error "Data appears to be empty or missing headers.".data) ∧
    (processCSVText (generateCSVContent [cexVoter]) = Except.ok [scrubTransient cexVoter] →
      [scrubTransient cexVoter] ≠ []) := by
  refine ⟨⟨?_, C7_import_rejects_header_only.1 csvHeader ?_⟩, ?_⟩
  · decide
  · decide
  · intro h
    exact C7_import_rejects_header_only.2.2 (generateCSVContent [cexVoter]) _ h
/-- C9: `updateVoter` replaces every stored record whose `epic_no` equals the
updated record's `epic_no` and leaves every other record unchanged: the store
keeps its length, position `i` holds the updated record exactly when the old
record at `i` shared its `epic_no`, records with a different `epic_no` are
still present, and every record of the new store is either the update or an
untouched old record with a different `epic_no` — so one poll-marking update
overwrites all records sharing that `epic_no`, not just one. -/
theorem C9_updateVoter_frame (u : Voter) (l : List Voter) (i : Nat)
    (hi : i < l.length) :
    (updateVoter u l).length = l.length ∧
    (updateVoter u l).get ⟨i, by simpa [updateVoter] using hi⟩
      = (if (l.get ⟨i, hi⟩).epic_no = u.epic_no then u else l.get ⟨i, hi⟩) ∧
    (∀ v ∈ l, v.epic_no ≠ u.epic_no → v ∈ updateVoter u l) ∧
    (∀ w ∈ updateVoter u l, w = u ∨ (w ∈ l ∧ w.epic_no ≠ u.epic_no)) := by
  refine ⟨by simp [updateVoter], ?_, ?_, ?_⟩
  · simp [updateVoter, List.getElem_map]
  · intro v hv hne
    have : (fun v => if v.epic_no = u.epic_no then u else v) v = v := if_neg hne
    rw [updateVoter, ← this]
    exact List.mem_map_of_mem _ hv
  · intro w hw
    rw [updateVoter, List.mem_map] at hw
    obtain ⟨v, hv, hw⟩ := hw
    by_cases he : v.epic_no = u.epic_no
    · rw [if_pos he] at hw
      exact Or.inl hw.symm
    · rw [if_neg he] at hw
      exact Or.inr ⟨hw ▸ hv, hw ▸ he⟩

/-- C9 (witness): the frame property at a concrete store holding two records
with the same (empty) `epic_no` and one different record. -/
theorem C9_witness :
    (2 : Nat) < ([{ cexVoter with epic_no := [] }, cexVoter,
        { cexVoter with epic_no := [], name_en := "B".data }] : List Voter).length ∧
    (updateVoter { cexVoter with epic_no := [], isVoted := true }
        [{ cexVoter with epic_no := [] }, cexVoter,
         { cexVoter with epic_no := [], name_en := "B".data }]).length = 3 := by
  constructor
  · decide
  · exact (C9_updateVoter_frame { cexVoter with epic_no := [], isVoted := true }
      [{ cexVoter with epic_no := [] }, cexVoter,
       { cexVoter with epic_no := [], name_en := "B".data }] 2 (by decide)).1

/-- Lowercase an ASCII character (for case-insensitive `/i` matching). -/
def toLowerAscii (c : Char) : Char :=
  if isUpperAZ c then Char.ofNat (c.toNat + 32) else c

/-- Match a literal word case-insensitively at the start of the input,
returning the remaining input (JavaScript `/i` literal semantics, ASCII). -/
def litCI : Str → Str → Option Str
  | [], s => some s
  | _ :: _, [] => none
  | p :: ps, c :: cs => if toLowerAscii c = toLowerAscii p then litCI ps cs else none

/-- Ordered alternation of literal words (first match wins). -/
def altsCI : List Str → Str → Option Str
  | [], _ => none
  | a :: rest, s =>
    match litCI a s with
    | some r => some r
    | none => altsCI rest s

/-- Length of the maximal prefix run of a character class (greedy `X*`/`X+`). -/
def runLen (cls : Char → Bool) (s : Str) : Nat := (s.takeWhile cls).length

/-- The `.` class of JavaScript regexes: anything but a line terminator. -/
def dotCls (c : Char) : Bool :=
  !(c == '\n' || c == '\r' || c == '\u2028' || c == '\u2029')

/-- The separator class `[:\s\-\.]` of the `NAME`/`RELATIVE`/`HOUSE` patterns. -/
def sepNameCls (c : Char) : Bool := c == ':' || jsWs c || c == '-' || c == '.'

/-- The class `['â€™\s]` of the `RELATIVE` pattern, with the apostrophe
characters exactly as they appear (mojibake-encoded) in the source file. -/
def relQuoteCls (c : Char) : Bool :=
  c == '\'' || c == 'â' || c == '€' || c == '™' || jsWs c

/-- The group class `[0-9\-\/A-Za-z\s]` of the `HOUSE` pattern. -/
def houseGroupCls (c : Char) : Bool :=
  isDigit09 c || c == '-' || c == '/' || isAlphaAZ c || jsWs c

/-- The class `[:\s-]` of the `AGE_GENDER` and header patterns. -/
def ageSepCls (c : Char) : Bool := c == ':' || jsWs c || c == '-'

/-- The group class `[A-Za-z\s]` of the assembly header pattern. -/
def alphaWsCls (c : Char) : Bool := isAlphaAZ c || jsWs c

/-- The group class `[0-9A-Za-z\s\-\.]` of the polling-station header pattern. -/
def psGroupCls (c : Char) : Bool :=
  isDigit09 c || isAlphaAZ c || jsWs c || c == '-' || c == '.'

/-- Terminator test for `(?:w1|...|wn|$)`: the word alternatives in order,
with `$` matching only at the end of the input. -/
def termAt (terms : List Str) (s : Str) : Bool :=
  s.isEmpty || terms.any (fun t => (litCI t s).isSome)

/-- Expansion loop of a lazy quantified group `(X+?)` followed by a
terminator group: after having consumed `acc`, first try the terminator at
the current position, else consume one more class character. -/
def lazyGo (cls : Char → Bool) (terms : List Str) : Str → Str → Option Str
  | acc, [] => if termAt terms [] then some acc else none
  | acc, c :: r =>
    if termAt terms (c :: r) then some acc
    else if cls c then lazyGo cls terms (acc ++ [c]) r else none

/-- A lazy group `(X+?)` (at least one character) followed by a terminator. -/
def lazyGroup (cls : Char → Bool) (terms : List Str) : Str → Option Str
  | [] => none
  | c :: r => if cls c then lazyGo cls terms [c] r else none

/-- Backtracking over the greedy separator run `S+`: try the maximal run
first, giving characters back one at a time (but consuming at least one). -/
def sepThenLazy (groupCls : Char → Bool) (terms : List Str) (s : Str) : Nat → Option Str
  | 0 => none
  | k + 1 =>
    match lazyGroup groupCls terms (s.drop (k + 1)) with
    | some g => some g
    | none => sepThenLazy groupCls terms s k

/-- The continuation `S+ (X+?) (?:T|$)` after a matched prefix. -/
def sepLazyCont (sepCls groupCls : Char → Bool) (terms : List Str) (rest : Str) :
    Option Str :=
  sepThenLazy groupCls terms rest (runLen sepCls rest)

/-- Ordered prefix alternatives, each tried with the full continuation
(JavaScript alternation backtracks into later alternatives when the
continuation fails). -/
def tryPrefixes : List (Str → Option Str) → (Str → Option Str) → Str → Option Str
  | [], _, _ => none
  | p :: ps, k, s =>
    match p s with
    | some rest =>
      match k rest with
      | some g => some g
      | none => tryPrefixes ps k s
    | none => tryPrefixes ps k s

/-- Leftmost-match scan for the `PREFIX S+ (X+?) (?:T|$)` pattern shape
shared by the `NAME`, `RELATIVE` and `HOUSE` patterns; returns the content of
the capturing group. -/
def fieldSearch (prefixes : List (Str → Option Str)) (sepCls groupCls : Char → Bool)
    (terms : List Str) : Str → Option Str
  | [] => tryPrefixes prefixes (sepLazyCont sepCls groupCls terms) []
  | c :: t =>
    match tryPrefixes prefixes (sepLazyCont sepCls groupCls terms) (c :: t) with
    | some g => some g
    | none => fieldSearch prefixes sepCls groupCls terms t

/-- The terminator words of `PATTERNS.NAME`. -/
def nameTerms : List Str :=
  ["Father".data, "Husband".data, "Mother".data, "Guardian".data, "House".data,
   "Age".data, "Gender".data, "Sex".data, "Elector".data, "Photo".data]

/-- `PATTERNS.NAME`:
`/Name[:\s\-\.]+(.+?)(?:Father|Husband|Mother|Guardian|House|Age|Gender|Sex|Elector|Photo|$)/i`. -/
def nameSearch : Str → Option Str :=
  fieldSearch [litCI "Name".data] sepNameCls dotCls nameTerms

/-- One relation-prefix alternative of `PATTERNS.RELATIVE`:
the relation word, then `['â€™\s]*`, then `Name`. -/
def relPrefix (w : Str) (s : Str) : Option Str :=
  match litCI w s with
  | none => none
  | some r => litCI "Name".data (r.drop (runLen relQuoteCls r))

/-- The terminator words of `PATTERNS.RELATIVE`. -/
def relTerms : List Str :=
  ["House".data, "Age".data, "Gender".data, "Sex".data, "Elector".data, "Photo".data]

/-- `PATTERNS.RELATIVE`:
`/(?:Father|Husband|Mother|Guardian)['â€™\s]*Name[:\s\-\.]+(.+?)(?:House|Age|Gender|Sex|Elector|Photo|$)/i`. -/
def relativeSearch : Str → Option Str :=
  fieldSearch [relPrefix "Father".data, relPrefix "Husband".data,
    relPrefix "Mother".data, relPrefix "Guardian".data] sepNameCls dotCls relTerms

/-- The terminator words of `PATTERNS.HOUSE`. -/
def houseTerms : List Str := ["Age".data, "Gender".data, "Sex".data]

/-- `PATTERNS.HOUSE`:
`/(?:House|No|H\.No|Ho)[\s\-\.:]+([0-9\-\/A-Za-z\s]+?)(?:Age|Gender|Sex|$)/i`. -/
def houseSearch : Str → Option Str :=
  fieldSearch [litCI "House".data, litCI "No".data, litCI "H.No".data,
    litCI "Ho".data] sepNameCls houseGroupCls houseTerms

/-- One attempt of `PATTERNS.AGE_GENDER` at the current position:
`/(?:Age|Aqe)[:\s-]*(\d+)[\s\t]*(?:Gender|Sex)[:\s-]*([A-Za-z]+)/i`.
Every adjacent pair of quantified parts has disjoint character classes, so
greedy maximal-munch needs no backtracking here. -/
def ageGenderAt (s : Str) : Option (Str × Str) :=
  match altsCI ["Age".data, "Aqe".data] s with
  | none => none
  | some r0 =>
    let r1 := r0.drop (runLen ageSepCls r0)
    let ds := r1.takeWhile isDigit09
    if ds = [] then none
    else
      let r2 := (r1.drop ds.length).drop (runLen jsWs (r1.drop ds.length))
      match altsCI ["Gender".data, "Sex".data] r2 with
      | none => none
      | some r4 =>
        let gs := (r4.drop (runLen ageSepCls r4)).takeWhile isAlphaAZ
        if gs = [] then none else some (ds, gs)

/-- Leftmost-match scan for `PATTERNS.AGE_GENDER`. -/
def ageGenderSearch : Str → Option (Str × Str)
  | [] => ageGenderAt []
  | c :: t =>
    match ageGenderAt (c :: t) with
    | some p => some p
    | none => ageGenderSearch t

/-- First alternative of `PATTERNS.EPIC`: `[A-Z]{3}[O0-9]{7}` (exactly three
uppercase letters then seven characters that are digits or the letter `O`). -/
def epicAltA (s : Str) : Option Str :=
  if (s.take 3).length = 3 ∧ (s.take 3).all isUpperAZ = true ∧
      ((s.drop 3).take 7).length = 7 ∧
      ((s.drop 3).take 7).all (fun c => c == 'O' || isDigit09 c) = true
  then some (s.take 10) else none

/-- Second alternative of `PATTERNS.EPIC`: `[A-Z]{3,}\d{5,}[A-Z0-9]*`.
The three parts have pairwise disjoint boundary classes, so the greedy
quantifiers reduce to maximal runs. -/
def epicAltB (s : Str) : Option Str :=
  let k := runLen isUpperAZ s
  if k < 3 then none
  else
    let m := runLen isDigit09 (s.drop k)
    if m < 5 then none
    else
      let j := runLen (fun c => isUpperAZ c || isDigit09 c) ((s.drop k).drop m)
      some (s.take (k + m + j))

/-- One attempt of `PATTERNS.EPIC` at the current position (ordered
alternation: the fixed-length alternative is tried first). -/
def epicMatchAt (s : Str) : Option Str :=
  match epicAltA s with
  | some m => some m
  | none => epicAltB s

/-- Leftmost-match scan for `PATTERNS.EPIC` (`String.prototype.match`
returning `m[0]`; `test` is `(epicSearch s).isSome`). -/
def epicSearch : Str → Option Str
  | [] => none
  | c :: t =>
    match epicMatchAt (c :: t) with
    | some m => some m
    | none => epicSearch t

/-- `.replace(/O/g, '0')` applied to a matched id. -/
def replaceOs (s : Str) : Str := s.map (fun c => if c = 'O' then '0' else c)

/-- `S* (X+)` with the greedy separator star giving characters back until the
greedy group is non-empty (used by the two header patterns). -/
def sepStarGreedy (groupCls : Char → Bool) (r : Str) : Nat → Option Str
  | 0 =>
    let g := r.takeWhile groupCls
    if g = [] then none else some g
  | k + 1 =>
    let g := (r.drop (k + 1)).takeWhile groupCls
    if g = [] then sepStarGreedy groupCls r k else some g

/-- Continuation of the assembly header pattern after `.*?`:
`Constituency[:\s-]*([A-Za-z\s]+)`. -/
def constituencyCont (r : Str) : Option Str :=
  match litCI "Constituency".data r with
  | none => none
  | some r2 => sepStarGreedy alphaWsCls r2 (runLen ageSepCls r2)

/-- The lazy `.*?` scan of the assembly pattern: expand one non-terminator
character at a time until the continuation matches. -/
def asmLazyScan : Str → Option Str
  | [] => constituencyCont []
  | c :: t =>
    match constituencyCont (c :: t) with
    | some g => some g
    | none => if dotCls c then asmLazyScan t else none

/-- Leftmost-match scan for `/Assembly.*?Constituency[:\s-]*([A-Za-z\s]+)/i`. -/
def asmSearch : Str → Option Str
  | [] => none
  | c :: t =>
    match (litCI "Assembly".data (c :: t)).bind asmLazyScan with
    | some g => some g
    | none => asmSearch t

/-- Continuation of the polling-station header pattern after `.*?`:
`Station[:\s-]*([0-9A-Za-z\s\-\.]+)`. -/
def stationCont (r : Str) : Option Str :=
  match litCI "Station".data r with
  | none => none
  | some r2 => sepStarGreedy psGroupCls r2 (runLen ageSepCls r2)

/-- The lazy `.*?` scan of the polling-station pattern. -/
def psLazyScan : Str → Option Str
  | [] => stationCont []
  | c :: t =>
    match stationCont (c :: t) with
    | some g => some g
    | none => if dotCls c then psLazyScan t else none

/-- Leftmost-match scan for `/Polling.*?Station[:\s-]*([0-9A-Za-z\s\-\.]+)/i`. -/
def psSearch : Str → Option Str
  | [] => none
  | c :: t =>
    match (litCI "Polling".data (c :: t)).bind psLazyScan with
    | some g => some g
    | none => psSearch t

/-- `/^(\d+)/`: the leading digit run, used for the serial number. -/
def leadingDigits (s : Str) : Option Str :=
  let d := s.takeWhile isDigit09
  if d = [] then none else some d

/-- The per-card fields recovered by regex extraction from the flattened
region text — shared verbatim by the digital-text and image-OCR strategies. -/
structure CardFields where
  sl_no : Str
  name_en : Str
  relative_name : Str
  house_no : Str
  age : Str
  gender : Str
deriving DecidableEq, Repr

/-- The Field Extractor: apply the pattern rules independently to one
flattened region line, with the source's defaults (`"Unknown"` for a missing
name, empty string for every other missing field). -/
def cardFieldsOf (fullCardText : Str) : CardFields :=
  { sl_no := (leadingDigits fullCardText).getD []
    name_en := match nameSearch fullCardText with
               | some m => jsTrim m
               | none => "Unknown".data
    relative_name := ((relativeSearch fullCardText).map jsTrim).getD []
    house_no := ((houseSearch fullCardText).map jsTrim).getD []
    age := ((ageGenderSearch fullCardText).map Prod.fst).getD []
    gender := ((ageGenderSearch fullCardText).map Prod.snd).getD [] }

/-- One OCR word token with its bounding box (`data.words` of Tesseract). -/
structure OcrWord where
  text : Str
  x0 : ℚ
  x1 : ℚ
  y0 : ℚ
  y1 : ℚ
deriving DecidableEq, Repr

/-- A card region in OCR pixel coordinates. -/
structure OcrRegion where
  x0 : ℚ
  x1 : ℚ
  y0 : ℚ
  y1 : ℚ
deriving DecidableEq, Repr

/-- The card region the OCR strategy derives from an EPIC anchor word:
`{x0: bbox.x0 - 250, x1: bbox.x1 + 100, y0: bbox.y0 - 20, y1: bbox.y1 + 140}`. -/
def ocrCardRegion (b : OcrWord) : OcrRegion :=
  { x0 := b.x0 - 250, x1 := b.x1 + 100, y0 := b.y0 - 20, y1 := b.y1 + 140 }

/-- Membership of a word's bounding box in a card region (the OCR filter). -/
def inOcrRegion (r : OcrRegion) (w : OcrWord) : Bool :=
  decide (r.x0 ≤ w.x0 ∧ w.x1 ≤ r.x1 ∧ r.y0 ≤ w.y0 ∧ w.y1 ≤ r.y1)

/-- The OCR in-region sort order (top-to-bottom with a 10-pixel row
tolerance, then left-to-right).  The source uses `Array.prototype.sort` with
this comparator; with an intransitive comparator the exact permutation is
engine-defined, modelled here as a stable merge sort. -/
def ocrWordLe (a b : OcrWord) : Bool :=
  if |a.y0 - b.y0| > 10 then a.y0 < b.y0 else a.x0 ≤ b.x0

/-- The anchors of the OCR Region Clusterer: words matching `PATTERNS.EPIC`. -/
def ocrAnchors (words : List OcrWord) : List OcrWord :=
  words.filter (fun w => (epicSearch w.text).isSome)

/-- The OCR Region Clusterer: one region per anchor, holding every word
whose bounding box lies inside that anchor's card region. -/
def ocrRegions (words : List OcrWord) : List (List OcrWord) :=
  (ocrAnchors words).map (fun e => words.filter (fun w => inOcrRegion (ocrCardRegion e) w))

/-- One text item of the PDF text layer, with its transform coordinates
(`x = transform[4]`, `y = transform[5]`), the string already URI-decoded. -/
structure TextItem where
  text : Str
  x : ℚ
  y : ℚ
  w : ℚ
  h : ℚ
deriving DecidableEq, Repr

/-- A search window in PDF text-layer coordinates (origin bottom-left). -/
structure DigitalRegion where
  xMin : ℚ
  xMax : ℚ
  yMin : ℚ
  yMax : ℚ
deriving DecidableEq, Repr

/-- The search window the digital-text strategy derives from an EPIC anchor:
`{xMin: x - 200, xMax: x + 200, yMin: y - 120, yMax: y + 60}`. -/
def digitalSearchRegion (e : TextItem) : DigitalRegion :=
  { xMin := e.x - 200, xMax := e.x + 200, yMin := e.y - 120, yMax := e.y + 60 }

/-- Membership of an item in a search window (the digital-text filter). -/
def inDigitalRegion (r : DigitalRegion) (i : TextItem) : Bool :=
  decide (r.xMin ≤ i.x ∧ i.x ≤ r.xMax ∧ r.yMin ≤ i.y ∧ i.y ≤ r.yMax)

/-- The digital in-window sort order (y descending with a 5-unit row
tolerance, then x ascending). -/
def textItemLe (a b : TextItem) : Bool :=
  if |a.y - b.y| > 5 then b.y < a.y else a.x ≤ b.x

/-- The anchors of the digital Region Clusterer. -/
def digitalAnchors (items : List TextItem) : List TextItem :=
  items.filter (fun i => (epicSearch i.text).isSome)

/-- The digital Region Clusterer: one region per anchor, holding every item
inside that anchor's search window. -/
def digitalRegions (items : List TextItem) : List (List TextItem) :=
  (digitalAnchors items).map
    (fun e => items.filter (fun i => inDigitalRegion (digitalSearchRegion e) i))

/-- `.replace(/\s+/g, ' ')`: collapse every whitespace run to one space
(fuel-indexed to keep the definition structurally recursive). -/
def collapseWsAux : Nat → Str → Str
  | 0, _ => []
  | _ + 1, [] => []
  | fuel + 1, c :: t =>
    if jsWs c then ' ' :: collapseWsAux fuel (t.dropWhile (fun c => jsWs c))
    else c :: collapseWsAux fuel t

/-- `.replace(/\s+/g, ' ')` on a whole string. -/
def collapseWs (s : Str) : Str := collapseWsAux s.length s

/-- The page height of the digital text layer: `Math.max(...items.map(i => i.y))`
(0 for an empty page, where the choice is irrelevant). -/
def pageHeightOf (items : List TextItem) : ℚ :=
  ((items.map (fun i => i.y)).maximum).unbot' 0

/-- `extractVotersFromDigitalText`: header extraction from the top 10% band,
then one voter per EPIC anchor via window clustering, flattening and regex
field extraction. -/
def extractVotersFromDigitalText (textItems : List TextItem) (pageNum : Nat) :
    List Voter :=
  let pageHeight := pageHeightOf textItems
  let headerItems := textItems.filter (fun i => decide (i.y > pageHeight * (9 / 10)))
  let headerText := jsJoin [' '] (headerItems.map (fun i => i.text))
  let assembly := ((asmSearch headerText).map jsTrim).getD []
  let pollingStation := ((psSearch headerText).map jsTrim).getD []
  (digitalAnchors textItems).map (fun epicItem =>
    let cardItems := textItems.filter
      (fun i => inDigitalRegion (digitalSearchRegion epicItem) i)
    let sorted := cardItems.mergeSort textItemLe
    let fullCardText := collapseWs (jsJoin [' '] (sorted.map (fun i => i.text)))
    let epic := match epicSearch epicItem.text with
                | some m => replaceOs m
                | none => []
    let f := cardFieldsOf fullCardText
    { sl_no := f.sl_no, epic_no := epic, name_en := f.name_en, name_te := [],
      relative_name := f.relative_name, house_no := f.house_no, age := f.age,
      gender := f.gender, assembly_name := assembly, parliament_name := [],
      polling_station_no := pollingStation, photoBase64 := none,
      originalPage := some pageNum, isVoted := false, votedParty := none,
      timestamp := none })

/-- The OCR body once the engine has produced word tokens (the code inside
the `try` block after `worker.recognize`): header extraction from the band
above 150 pixels, then one voter per EPIC anchor (anchors whose normalized id
would be empty are skipped by the `if (!epicNo) continue` guard).  The
`includePhotos` path crops a fixed sub-region of the card; the canvas crop is
abstracted as the `crop` oracle (`cropImage` always resolves, never rejects). -/
def ocrExtractWords (crop : List ℚ → Str) (includePhotos : Bool)
    (words : List OcrWord) (pageNumber : Nat) : List Voter :=
  let headerLimit : ℚ := 150
  let topWords := words.filter (fun w => decide (w.y1 < headerLimit))
  let fullPageText := jsJoin [' '] (topWords.map (fun w => w.text))
  let assembly := ((asmSearch fullPageText).map jsTrim).getD []
  let pollingStation := ((psSearch fullPageText).map jsTrim).getD []
  (ocrAnchors words).filterMap (fun epicWord =>
    let rawEpic := (epicSearch epicWord.text).getD []
    let epicNo := replaceOs rawEpic
    if epicNo = [] then none
    else
      let cardRegion := ocrCardRegion epicWord
      let cardWords := words.filter (fun w => inOcrRegion cardRegion w)
      let sorted := cardWords.mergeSort ocrWordLe
      let fullCardText := jsJoin [' '] (sorted.map (fun w => w.text))
      let f := cardFieldsOf fullCardText
      let photoBase64 :=
        if includePhotos then
          some (crop [cardRegion.y0 + 30,
            cardRegion.x1 - (cardRegion.x1 - cardRegion.x0) * (35 / 100),
            cardRegion.y1 - 10, cardRegion.x1])
        else none
      let v : Voter :=
        { sl_no := f.sl_no, epic_no := epicNo, name_en := f.name_en,
          name_te := [], relative_name := f.relative_name, house_no := f.house_no,
          age := f.age, gender := f.gender, assembly_name := assembly,
          parliament_name := [], polling_station_no := pollingStation,
          photoBase64 := photoBase64, originalPage := some pageNumber,
          isVoted := false, votedParty := none, timestamp := none }
      some v)

/-- The image-OCR strategy `extractVotersFromImage` of the local service:
the whole body runs in a `try` whose `catch` returns the empty list, so any
failure of preprocessing, the OCR engine or parsing (abstracted as the
`recognized` oracle resolving to `Except.error`) yields `[]` for the page. -/
def ocrExtractVotersFromImage (crop : List ℚ → Str) (includePhotos : Bool)
    (recognized : Except Unit (List OcrWord)) (pageNumber : Nat) : List Voter :=
  match recognized with
  | Except.error _ => []
  | Except.ok words => ocrExtractWords crop includePhotos words pageNumber

/-- Case-insensitive substring test (used to state "the line contains no
recognizable Name label"): some suffix starts with the word. -/
def containsCI (pat : Str) : Str → Bool
  | [] => (litCI pat []).isSome
  | c :: t => (litCI pat (c :: t)).isSome || containsCI pat t

/-- `g` occurs contiguously inside `s`. -/
def SubstringOf (g s : Str) : Prop := ∃ a b, s = a ++ g ++ b

lemma litCI_suffix : ∀ {w s r : Str}, litCI w s = some r → ∃ a, s = a ++ r
  | [], s, r, h => by
    rw [litCI, Option.some.injEq] at h
    exact ⟨[], by simp [h]⟩
  | p :: ps, [], r, h => by simp [litCI] at h
  | p :: ps, c :: cs, r, h => by
    rw [litCI] at h
    split at h
    · obtain ⟨a, ha⟩ := litCI_suffix h
      exact ⟨c :: a, by simp [ha]⟩
    · exact absurd h (by simp)

lemma containsCI_of_suffix : ∀ (a : Str) {pat u : Str},
    (litCI pat u).isSome = true → containsCI pat (a ++ u) = true
  | [], pat, u, h => by
    cases u with
    | nil => simpa [containsCI] using h
    | cons c t =>
      show containsCI pat (c :: t) = true
      simp [containsCI, h]
  | c :: a', pat, u, h => by
    have ih := containsCI_of_suffix a' h
    show containsCI pat (c :: (a' ++ u)) = true
    simp [containsCI, ih]

lemma tryPrefixes_split : ∀ {ps : List (Str → Option Str)} {k : Str → Option Str}
    {s g : Str}, tryPrefixes ps k s = some g →
    ∃ p ∈ ps, ∃ rest, p s = some rest ∧ k rest = some g
  | [], _, _, _, h => by simp [tryPrefixes] at h
  | p :: ps, k, s, g, h => by
    rw [tryPrefixes] at h
    rcases hp : p s with _ | rest
    · rw [hp] at h
      dsimp only at h
      obtain ⟨q, hq, hr⟩ := tryPrefixes_split h
      exact ⟨q, by simp [hq], hr⟩
    · rw [hp] at h
      dsimp only at h
      rcases hk : k rest with _ | g2
      · rw [hk] at h
        dsimp only at h
        obtain ⟨q, hq, hr⟩ := tryPrefixes_split h
        exact ⟨q, by simp [hq], hr⟩
      · rw [hk] at h
        dsimp only at h
        rw [Option.some.injEq] at h
        exact ⟨p, by simp, rest, hp, h ▸ hk⟩

lemma fieldSearch_split : ∀ {prefixes sepCls groupCls terms} {s g : Str},
    fieldSearch prefixes sepCls groupCls terms s = some g →
    ∃ (a u : Str), s = a ++ u ∧
      tryPrefixes prefixes (sepLazyCont sepCls groupCls terms) u = some g
  | prefixes, sepCls, groupCls, terms, [], g, h => ⟨[], [], rfl, h⟩
  | prefixes, sepCls, groupCls, terms, c :: t, g, h => by
    rw [fieldSearch] at h
    rcases ht : tryPrefixes prefixes (sepLazyCont sepCls groupCls terms) (c :: t)
      with _ | g2
    · rw [ht] at h
      dsimp only at h
      obtain ⟨a, u, hs, hu⟩ := fieldSearch_split h
      exact ⟨c :: a, u, by simp [hs], hu⟩
    · rw [ht] at h
      dsimp only at h
      rw [Option.some.injEq] at h
      exact ⟨[], c :: t, rfl, h ▸ ht⟩

lemma nameSearch_containsCI {t g : Str} (h : nameSearch t = some g) :
    containsCI "Name".data t = true := by
  obtain ⟨a, u, rfl, htry⟩ := fieldSearch_split h
  obtain ⟨p, hp, rest, hps, -⟩ := tryPrefixes_split htry
  rw [List.mem_singleton] at hp
  subst hp
  exact containsCI_of_suffix a (by simp [hps])

lemma relativeSearch_containsCI {t g : Str} (h : relativeSearch t = some g) :
    containsCI "Name".data t = true := by
  obtain ⟨a, u, rfl, htry⟩ := fieldSearch_split h
  obtain ⟨p, hp, rest, hps, -⟩ := tryPrefixes_split htry
  have hform : ∃ w, p = relPrefix w := by
    simp only [List.mem_cons, List.not_mem_nil, or_false] at hp
    rcases hp with rfl | rfl | rfl | rfl
    · exact ⟨_, rfl⟩
    · exact ⟨_, rfl⟩
    · exact ⟨_, rfl⟩
    · exact ⟨_, rfl⟩
  obtain ⟨w, rfl⟩ := hform
  rw [relPrefix] at hps
  rcases hw : litCI w u with _ | r
  · rw [hw] at hps
    exact absurd hps (by simp)
  · rw [hw] at hps
    dsimp only at hps
    obtain ⟨a1, rfl⟩ := litCI_suffix hw
    have hdrop : r = r.take (runLen relQuoteCls r) ++ r.drop (runLen relQuoteCls r) :=
      (List.take_append_drop _ r).symm
    have : a ++ (a1 ++ r) = (a ++ a1 ++ r.take (runLen relQuoteCls r))
        ++ r.drop (runLen relQuoteCls r) := by
      conv_lhs => rw [hdrop]
      simp
    rw [this]
    exact containsCI_of_suffix _ (by simp [hps])

/-- C10: for a flattened region line with no case-insensitive occurrence of
the word `Name` (hence no recognizable Name label), the Field Extractor
returns the `"Unknown"` sentinel for the English name and the empty string
for the relative name; every other field whose pattern fails likewise
defaults to the empty string.  Totality (no exception) is by construction:
`cardFieldsOf` is a total function. -/
theorem C10_no_name_label_defaults (t : Str)
    (h : containsCI "Name".data t = false) :
    (cardFieldsOf t).name_en = "Unknown".data ∧
    (cardFieldsOf t).relative_name = [] ∧
    (houseSearch t = none → (cardFieldsOf t).house_no = []) ∧
    (ageGenderSearch t = none →
      (cardFieldsOf t).age = [] ∧ (cardFieldsOf t).gender = []) ∧
    (leadingDigits t = none → (cardFieldsOf t).sl_no = []) := by
  have hname : nameSearch t = none := by
    rcases hn : nameSearch t with _ | g
    · rfl
    · exact absurd (nameSearch_containsCI hn) (by simp [h])
  have hrel : relativeSearch t = none := by
    rcases hn : relativeSearch t with _ | g
    · rfl
    · exact absurd (relativeSearch_containsCI hn) (by simp [h])
  refine ⟨?_, ?_, fun hh => ?_, fun ha => ?_, fun hl => ?_⟩
  · show (match nameSearch t with
          | some m => jsTrim m
          | none => "Unknown".data) = "Unknown".data
    rw [hname]
  · show ((relativeSearch t).map jsTrim).getD [] = []
    rw [hrel]
    rfl
  · show ((houseSearch t).map jsTrim).getD [] = []
    rw [hh]
    rfl
  · constructor
    · show ((ageGenderSearch t).map Prod.fst).getD [] = []
      rw [ha]
      rfl
    · show ((ageGenderSearch t).map Prod.snd).getD [] = []
      rw [ha]
      rfl
  · show (leadingDigits t).getD [] = []
    rw [hl]
    rfl

/-- C10 (witness): a concrete line with house/age/gender labels but no Name
label yields the `"Unknown"` sentinel and an empty relative name. -/
theorem C10_witness :
    containsCI "Name".data "12 House: 4-B Age: 33 Gender: M".data = false ∧
    (cardFieldsOf "12 House: 4-B Age: 33 Gender: M".data).name_en = "Unknown".data ∧
    (cardFieldsOf "12 House: 4-B Age: 33 Gender: M".data).relative_name = [] :=
  ⟨by decide,
   (C10_no_name_label_defaults "12 House: 4-B Age: 33 Gender: M".data (by decide)).1,
   (C10_no_name_label_defaults "12 House: 4-B Age: 33 Gender: M".data (by decide)).2.1⟩

lemma lazyGo_take : ∀ {cls terms} {acc rest g : Str},
    lazyGo cls terms acc rest = some g → ∃ d, g = acc ++ rest.take d
  | cls, terms, acc, [], g, h => by
    rw [lazyGo] at h
    split at h
    · rw [Option.some.injEq] at h
      exact ⟨0, by simp [h.symm]⟩
    · exact absurd h (by simp)
  | cls, terms, acc, c :: r, g, h => by
    rw [lazyGo] at h
    split at h
    · rw [Option.some.injEq] at h
      exact ⟨0, by simp [h.symm]⟩
    · split at h
      · obtain ⟨d, hd⟩ := lazyGo_take h
        exact ⟨d + 1, by simp [hd, List.take_succ_cons]⟩
      · exact absurd h (by simp)

lemma lazyGroup_take {cls terms} {s g : Str} (h : lazyGroup cls terms s = some g) :
    ∃ d, g = s.take d := by
  cases s with
  | nil => exact absurd h (by simp [lazyGroup])
  | cons c r =>
    rw [lazyGroup] at h
    split at h
    · obtain ⟨d, hd⟩ := lazyGo_take h
      exact ⟨d + 1, by simp [hd, List.take_succ_cons]⟩
    · exact absurd h (by simp)

lemma sepThenLazy_sub : ∀ {groupCls terms} {s g : Str} {k : Nat},
    sepThenLazy groupCls terms s k = some g → ∃ n d, g = (s.drop n).take d := by
  intro groupCls terms s g k
  induction k with
  | zero => intro h; exact absurd h (by simp [sepThenLazy])
  | succ k ih =>
    intro h
    rw [sepThenLazy] at h
    rcases hl : lazyGroup groupCls terms (s.drop (k + 1)) with _ | g2
    · rw [hl] at h
      dsimp only at h
      exact ih h
    · rw [hl] at h
      dsimp only at h
      rw [Option.some.injEq] at h
      obtain ⟨d, hd⟩ := lazyGroup_take hl
      exact ⟨k + 1, d, by rw [← h, hd]⟩

lemma substringOf_drop_take (s : Str) (n d : Nat) :
    SubstringOf ((s.drop n).take d) s :=
  ⟨s.take n, (s.drop n).drop d, by
    rw [List.append_assoc, List.take_append_drop, List.take_append_drop]⟩

lemma substringOf_trans {g u t : Str} (h1 : SubstringOf g u) (h2 : SubstringOf u t) :
    SubstringOf g t := by
  obtain ⟨a1, b1, rfl⟩ := h1
  obtain ⟨a2, b2, rfl⟩ := h2
  exact ⟨a2 ++ a1, b1 ++ b2, by simp⟩

lemma jsTrim_substringOf (g : Str) : SubstringOf (jsTrim g) g := by
  refine ⟨g.takeWhile (fun c => jsWs c),
    ((g.dropWhile (fun c => jsWs c)).reverse.takeWhile (fun c => jsWs c)).reverse, ?_⟩
  unfold jsTrim dropTrailWs
  conv_lhs => rw [← List.takeWhile_append_dropWhile (p := fun c => jsWs c) (l := g)]
  rw [List.append_assoc]
  congr 1
  conv_lhs =>
    rw [← List.reverse_reverse (g.dropWhile (fun c => jsWs c)),
      ← List.takeWhile_append_dropWhile (p := fun c => jsWs c)
        (l := (g.dropWhile (fun c => jsWs c)).reverse),
      List.reverse_append]

lemma fieldSearch_substring {prefixes : List (Str → Option Str)}
    {sepCls groupCls : Char → Bool} {terms : List Str} {t g : Str}
    (hpre : ∀ p ∈ prefixes, ∀ u rest : Str, p u = some rest → ∃ a1, u = a1 ++ rest)
    (h : fieldSearch prefixes sepCls groupCls terms t = some g) :
    SubstringOf g t := by
  obtain ⟨a, u, rfl, htry⟩ := fieldSearch_split h
  obtain ⟨p, hp, rest, hps, hk⟩ := tryPrefixes_split htry
  obtain ⟨a1, rfl⟩ := hpre p hp u rest hps
  rw [sepLazyCont] at hk
  obtain ⟨n, d, hg⟩ := sepThenLazy_sub hk
  refine substringOf_trans (hg ▸ substringOf_drop_take rest n d) ⟨a ++ a1, [], by simp⟩

lemma litCI_prefix_suffix (w : Str) : ∀ (u rest : Str),
    litCI w u = some rest → ∃ a1, u = a1 ++ rest :=
  fun _ _ h => litCI_suffix h

lemma relPrefix_suffix (w : Str) : ∀ (u rest : Str),
    relPrefix w u = some rest → ∃ a1, u = a1 ++ rest := by
  intro u rest h
  rw [relPrefix] at h
  rcases hw : litCI w u with _ | r
  · rw [hw] at h
    exact absurd h (by simp)
  · rw [hw] at h
    dsimp only at h
    obtain ⟨aw, rfl⟩ := litCI_suffix hw
    obtain ⟨an, hdrop⟩ := litCI_suffix h
    refine ⟨aw ++ r.take (runLen relQuoteCls r) ++ an, ?_⟩
    conv_lhs => rw [← List.take_append_drop (runLen relQuoteCls r) r, hdrop]
    simp

/-- C4: for every text matching `PATTERNS.EPIC`, the normalized id rewrites
the matched capture character-by-character, turning every `O` (wherever it
occurs in the match, in particular every `O` of the digit segment) into `0`
and leaving every other character unchanged, so no `O` survives; and the
replacement touches only the id capture: the extracted name and relative-name
fields are always verbatim (trimmed) substrings of the region text, never
O-rewritten. -/
theorem C4_epic_O_normalization :
    (∀ s m : Str, epicSearch s = some m →
      (replaceOs m).length = m.length ∧
      (∀ (i : Nat) (hi : i < m.length),
        (replaceOs m).get ⟨i, by simpa [replaceOs] using hi⟩
          = (if m.get ⟨i, hi⟩ = 'O' then '0' else m.get ⟨i, hi⟩)) ∧
      'O' ∉ replaceOs m) ∧
    (∀ t g : Str, nameSearch t = some g → SubstringOf (jsTrim g) t) ∧
    (∀ t g : Str, relativeSearch t = some g → SubstringOf (jsTrim g) t) := by
  refine ⟨fun s m _ => ⟨by simp [replaceOs], fun i hi => ?_, fun hmem => ?_⟩,
    fun t g h => ?_, fun t g h => ?_⟩
  · simp [replaceOs, List.get_eq_getElem, List.getElem_map]
  · rw [replaceOs, List.mem_map] at hmem
    obtain ⟨c, _, hc⟩ := hmem
    by_cases hco : c = 'O'
    · rw [if_pos hco] at hc
      exact absurd hc (by decide)
    · rw [if_neg hco] at hc
      exact hco hc
  · exact substringOf_trans (jsTrim_substringOf g)
      (fieldSearch_substring (by
        intro p hp
        rw [List.mem_singleton] at hp
        subst hp
        exact litCI_prefix_suffix _) h)
  · refine substringOf_trans (jsTrim_substringOf g) (fieldSearch_substring ?_ h)
    intro p hp
    simp only [List.mem_cons, List.not_mem_nil, or_false] at hp
    rcases hp with rfl | rfl | rfl | rfl
    · exact relPrefix_suffix _
    · exact relPrefix_suffix _
    · exact relPrefix_suffix _
    · exact relPrefix_suffix _

/-- C4 (witness): the claim's own example `ABC12O4567` normalizes to
`ABC1204567`, and a concrete name extraction is an O-free verbatim substring. -/
theorem C4_witness :
    epicSearch "ABC12O4567".data = some "ABC12O4567".data ∧
    replaceOs "ABC12O4567".data = "ABC1204567".data ∧
    'O' ∉ replaceOs "ABC12O4567".data ∧
    nameSearch "Name: MONO Age 3".data = some "MONO ".data ∧
    SubstringOf (jsTrim "MONO ".data) "Name: MONO Age 3".data :=
  ⟨by decide, by decide,
   (C4_epic_O_normalization.1 "ABC12O4567".data "ABC12O4567".data (by decide)).2.2,
   by decide,
   C4_epic_O_normalization.2.1 "Name: MONO Age 3".data "MONO ".data (by decide)⟩
/-- C6 (counterexample): at a concrete anchor, the search window of the
digital-text strategy spans 400 horizontally but only 180 vertically, and the
OCR card region of a concrete anchor box spans 360 horizontally but only 165
vertically — the window does NOT extend deeper above/below than left/right;
the asymmetry runs the other way. -/
theorem C6_counterexample :
    ¬((digitalSearchRegion ⟨"ABC1234567".data, 0, 0, 0, 0⟩).yMax
        - (digitalSearchRegion ⟨"ABC1234567".data, 0, 0, 0, 0⟩).yMin
      > (digitalSearchRegion ⟨"ABC1234567".data, 0, 0, 0, 0⟩).xMax
        - (digitalSearchRegion ⟨"ABC1234567".data, 0, 0, 0, 0⟩).xMin) ∧
    ¬((ocrCardRegion ⟨"ABC1234567".data, 0, 10, 0, 5⟩).y1
        - (ocrCardRegion ⟨"ABC1234567".data, 0, 10, 0, 5⟩).y0
      > (ocrCardRegion ⟨"ABC1234567".data, 0, 10, 0, 5⟩).x1
        - (ocrCardRegion ⟨"ABC1234567".data, 0, 10, 0, 5⟩).x0) := by
  constructor <;> simp [digitalSearchRegion, ocrCardRegion] <;> norm_num

/-- C6 (amended): the anchor window is indeed asymmetric, but it is wider
left/right than above/below: the digital window extends 200 to each side
horizontally against 120 below and 60 above (total 400 against 180), and the
OCR card region extends 250 left and 100 right against 20 above and 140
below, so whenever the anchor's own box is at least as wide as it is tall the
horizontal span strictly exceeds the vertical span. -/
theorem C6_window_asymmetry_amended :
    (∀ e : TextItem,
      e.x - (digitalSearchRegion e).xMin = 200 ∧
      (digitalSearchRegion e).xMax - e.x = 200 ∧
      e.y - (digitalSearchRegion e).yMin = 120 ∧
      (digitalSearchRegion e).yMax - e.y = 60 ∧
      (digitalSearchRegion e).xMax - (digitalSearchRegion e).xMin
        > (digitalSearchRegion e).yMax - (digitalSearchRegion e).yMin) ∧
    (∀ w : OcrWord,
      w.x0 - (ocrCardRegion w).x0 = 250 ∧
      (ocrCardRegion w).x1 - w.x1 = 100 ∧
      w.y0 - (ocrCardRegion w).y0 = 20 ∧
      (ocrCardRegion w).y1 - w.y1 = 140 ∧
      (w.y1 - w.y0 ≤ w.x1 - w.x0 →
        (ocrCardRegion w).x1 - (ocrCardRegion w).x0
          > (ocrCardRegion w).y1 - (ocrCardRegion w).y0)) := by
  constructor
  · intro e
    unfold digitalSearchRegion
    refine ⟨by ring, by ring, by ring, by ring, by norm_num⟩
  · intro w
    unfold ocrCardRegion
    refine ⟨by ring, by ring, by ring, by ring, fun hwide => by
      dsimp only
      linarith⟩

/-- C6 (witness): the amended asymmetry at a concrete anchor word. -/
theorem C6_witness :
    ((⟨"ABC1234567".data, 0, 10, 0, 5⟩ : OcrWord).y1
        - (⟨"ABC1234567".data, 0, 10, 0, 5⟩ : OcrWord).y0
      ≤ (⟨"ABC1234567".data, 0, 10, 0, 5⟩ : OcrWord).x1
        - (⟨"ABC1234567".data, 0, 10, 0, 5⟩ : OcrWord).x0) ∧
    (ocrCardRegion ⟨"ABC1234567".data, 0, 10, 0, 5⟩).x1
        - (ocrCardRegion ⟨"ABC1234567".data, 0, 10, 0, 5⟩).x0
      > (ocrCardRegion ⟨"ABC1234567".data, 0, 10, 0, 5⟩).y1
        - (ocrCardRegion ⟨"ABC1234567".data, 0, 10, 0, 5⟩).y0 :=
  ⟨by norm_num,
   (C6_window_asymmetry_amended.2 ⟨"ABC1234567".data, 0, 10, 0, 5⟩).2.2.2.2
     (by norm_num)⟩
lemma digital_windows_disjoint {a b i : TextItem} (hsep : |a.x - b.x| > 400)
    (hib : inDigitalRegion (digitalSearchRegion b) i = true) :
    inDigitalRegion (digitalSearchRegion a) i = false := by
  simp only [inDigitalRegion, digitalSearchRegion, decide_eq_true_eq] at hib
  simp only [inDigitalRegion, digitalSearchRegion, decide_eq_false_iff_not]
  rintro ⟨h1, h2, -, -⟩
  obtain ⟨hb1, hb2, -, -⟩ := hib
  rcases lt_abs.mp hsep with h | h <;> linarith

lemma ocr_windows_disjoint {a b w : OcrWord} (hw : w.x0 ≤ w.x1)
    (hsep : b.x0 - a.x1 > 350 ∨ a.x0 - b.x1 > 350)
    (hib : inOcrRegion (ocrCardRegion b) w = true) :
    inOcrRegion (ocrCardRegion a) w = false := by
  simp only [inOcrRegion, ocrCardRegion, decide_eq_true_eq] at hib
  simp only [inOcrRegion, ocrCardRegion, decide_eq_false_iff_not]
  rintro ⟨h1, h2, -, -⟩
  obtain ⟨hb1, hb2, -, -⟩ := hib
  rcases hsep with h | h <;> linarith

lemma filter_cluster3 {α : Type} (p : α → Bool) (g1 g2 g3 : List α)
    (h1 : ∀ x ∈ g1, p x = true) (h2 : ∀ x ∈ g2, p x = false)
    (h3 : ∀ x ∈ g3, p x = false) :
    (g1 ++ g2 ++ g3).filter p = g1 := by
  rw [List.filter_append, List.filter_append,
    List.filter_eq_self.mpr h1, List.filter_eq_nil_iff.mpr (by simpa using h2),
    List.filter_eq_nil_iff.mpr (by simpa using h3)]
  simp

lemma filter_append3 {α : Type} (p : α → Bool) (g1 g2 g3 : List α) :
    (g1 ++ g2 ++ g3).filter p = g1.filter p ++ g2.filter p ++ g3.filter p := by
  simp [List.filter_append]

/-- C8: for a page whose token list splits into three clusters, each lying in
its own anchor's window, with the three anchors (exactly the tokens matching
the id pattern) pairwise farther apart than the window span, the Region
Clusterer of either strategy produces exactly three regions — one per anchor,
in anchor order — and region `i` is exactly cluster `i`: no token of another
cluster leaks in. -/
theorem C8_region_clusterer_three_anchors :
    (∀ (g1 g2 g3 : List TextItem) (a1 a2 a3 : TextItem),
      digitalAnchors (g1 ++ g2 ++ g3) = [a1, a2, a3] →
      (∀ i ∈ g1, inDigitalRegion (digitalSearchRegion a1) i = true) →
      (∀ i ∈ g2, inDigitalRegion (digitalSearchRegion a2) i = true) →
      (∀ i ∈ g3, inDigitalRegion (digitalSearchRegion a3) i = true) →
      |a1.x - a2.x| > 400 → |a1.x - a3.x| > 400 → |a2.x - a3.x| > 400 →
      digitalRegions (g1 ++ g2 ++ g3) = [g1, g2, g3]) ∧
    (∀ (k1 k2 k3 : List OcrWord) (b1 b2 b3 : OcrWord),
      (∀ w ∈ k1 ++ k2 ++ k3, w.x0 ≤ w.x1) →
      ocrAnchors (k1 ++ k2 ++ k3) = [b1, b2, b3] →
      (∀ w ∈ k1, inOcrRegion (ocrCardRegion b1) w = true) →
      (∀ w ∈ k2, inOcrRegion (ocrCardRegion b2) w = true) →
      (∀ w ∈ k3, inOcrRegion (ocrCardRegion b3) w = true) →
      (b2.x0 - b1.x1 > 350 ∨ b1.x0 - b2.x1 > 350) →
      (b3.x0 - b1.x1 > 350 ∨ b1.x0 - b3.x1 > 350) →
      (b3.x0 - b2.x1 > 350 ∨ b2.x0 - b3.x1 > 350) →
      ocrRegions (k1 ++ k2 ++ k3) = [k1, k2, k3]) := by
  constructor
  · intro g1 g2 g3 a1 a2 a3 hanch hc1 hc2 hc3 h12 h13 h23
    have h21 : |a2.x - a1.x| > 400 := by rwa [abs_sub_comm]
    have h31 : |a3.x - a1.x| > 400 := by rwa [abs_sub_comm]
    have h32 : |a3.x - a2.x| > 400 := by rwa [abs_sub_comm]
    have e1 : (g1 ++ g2 ++ g3).filter
        (fun i => inDigitalRegion (digitalSearchRegion a1) i) = g1 :=
      filter_cluster3 _ _ _ _ hc1
        (fun x hx => digital_windows_disjoint h12 (hc2 x hx))
        (fun x hx => digital_windows_disjoint h13 (hc3 x hx))
    have e2 : (g1 ++ g2 ++ g3).filter
        (fun i => inDigitalRegion (digitalSearchRegion a2) i) = g2 := by
      rw [filter_append3,
        List.filter_eq_nil_iff.mpr
          (by simpa using fun x hx => digital_windows_disjoint h21 (hc1 x hx)),
        List.filter_eq_self.mpr hc2,
        List.filter_eq_nil_iff.mpr
          (by simpa using fun x hx => digital_windows_disjoint h23 (hc3 x hx))]
      simp
    have e3 : (g1 ++ g2 ++ g3).filter
        (fun i => inDigitalRegion (digitalSearchRegion a3) i) = g3 := by
      rw [filter_append3,
        List.filter_eq_nil_iff.mpr
          (by simpa using fun x hx => digital_windows_disjoint h31 (hc1 x hx)),
        List.filter_eq_nil_iff.mpr
          (by simpa using fun x hx => digital_windows_disjoint h32 (hc2 x hx)),
        List.filter_eq_self.mpr hc3]
      simp
    rw [digitalRegions, hanch, List.map_cons, List.map_cons, List.map_cons,
      List.map_nil, e1, e2, e3]
  · intro k1 k2 k3 b1 b2 b3 hwf hanch hc1 hc2 hc3 h12 h13 h23
    have hwf1 : ∀ w ∈ k1, w.x0 ≤ w.x1 := fun w hw => hwf w (by simp [hw])
    have hwf2 : ∀ w ∈ k2, w.x0 ≤ w.x1 := fun w hw => hwf w (by simp [hw])
    have hwf3 : ∀ w ∈ k3, w.x0 ≤ w.x1 := fun w hw => hwf w (by simp [hw])
    have e1 : (k1 ++ k2 ++ k3).filter
        (fun w => inOcrRegion (ocrCardRegion b1) w) = k1 :=
      filter_cluster3 _ _ _ _ hc1
        (fun x hx => ocr_windows_disjoint (hwf2 x hx) h12 (hc2 x hx))
        (fun x hx => ocr_windows_disjoint (hwf3 x hx) h13 (hc3 x hx))
    have e2 : (k1 ++ k2 ++ k3).filter
        (fun w => inOcrRegion (ocrCardRegion b2) w) = k2 := by
      rw [filter_append3,
        List.filter_eq_nil_iff.mpr
          (by simpa using fun x hx =>
            ocr_windows_disjoint (hwf1 x hx) h12.symm (hc1 x hx)),
        List.filter_eq_self.mpr hc2,
        List.filter_eq_nil_iff.mpr
          (by simpa using fun x hx =>
            ocr_windows_disjoint (hwf3 x hx) h23 (hc3 x hx))]
      simp
    have e3 : (k1 ++ k2 ++ k3).filter
        (fun w => inOcrRegion (ocrCardRegion b3) w) = k3 := by
      rw [filter_append3,
        List.filter_eq_nil_iff.mpr
          (by simpa using fun x hx =>
            ocr_windows_disjoint (hwf1 x hx) h13.symm (hc1 x hx)),
        List.filter_eq_nil_iff.mpr
          (by simpa using fun x hx =>
            ocr_windows_disjoint (hwf2 x hx) h23.symm (hc2 x hx)),
        List.filter_eq_self.mpr hc3]
      simp
    rw [ocrRegions, hanch, List.map_cons, List.map_cons, List.map_cons,
      List.map_nil, e1, e2, e3]

/-- Three concrete digital clusters for the C8 witness. -/
def c8g1 : List TextItem := [⟨"ABC1234567".data, 0, 0, 0, 0⟩, ⟨"x".data, 50, 30, 0, 0⟩]

def c8g2 : List TextItem := [⟨"DEF1234567".data, 500, 0, 0, 0⟩, ⟨"y".data, 550, -50, 0, 0⟩]

def c8g3 : List TextItem := [⟨"GHI1234567".data, 1000, 0, 0, 0⟩, ⟨"z".data, 990, 10, 0, 0⟩]

/-- C8 (witness): the clustering conclusion at a concrete 3-anchor page. -/
theorem C8_witness :
    digitalAnchors (c8g1 ++ c8g2 ++ c8g3)
      = [⟨"ABC1234567".data, 0, 0, 0, 0⟩, ⟨"DEF1234567".data, 500, 0, 0, 0⟩,
         ⟨"GHI1234567".data, 1000, 0, 0, 0⟩] ∧
    digitalRegions (c8g1 ++ c8g2 ++ c8g3) = [c8g1, c8g2, c8g3] := by
  have hanch : digitalAnchors (c8g1 ++ c8g2 ++ c8g3)
      = [⟨"ABC1234567".data, 0, 0, 0, 0⟩, ⟨"DEF1234567".data, 500, 0, 0, 0⟩,
         ⟨"GHI1234567".data, 1000, 0, 0, 0⟩] := by decide
  refine ⟨hanch, C8_region_clusterer_three_anchors.1 c8g1 c8g2 c8g3 _ _ _ hanch
    ?_ ?_ ?_ ?_ ?_ ?_⟩
  · intro i hi
    fin_cases hi <;> simp [inDigitalRegion, digitalSearchRegion] <;> norm_num
  · intro i hi
    fin_cases hi <;> simp [inDigitalRegion, digitalSearchRegion] <;> norm_num
  · intro i hi
    fin_cases hi <;> simp [inDigitalRegion, digitalSearchRegion] <;> norm_num
  · show |(0 : ℚ) - 500| > 400
    rw [abs_sub_comm]
    norm_num [abs_of_nonneg]
  · show |(0 : ℚ) - 1000| > 400
    rw [abs_sub_comm]
    norm_num [abs_of_nonneg]
  · show |(500 : ℚ) - 1000| > 400
    rw [abs_sub_comm]
    norm_num [abs_of_nonneg]

/-- The untyped record shape of the vision model's JSON response
(`VoterRawData` of `types.ts`): every field may be absent. -/
structure VoterRawData where
  sl_no : Option Str
  epic_no : Option Str
  name_en : Option Str
  name_te : Option Str
  relative_name : Option Str
  house_no : Option Str
  age : Option Str
  gender : Option Str
  assembly_name : Option Str
  parliament_name : Option Str
  polling_station_no : Option Str
  photo_box_2d : Option (List ℚ)
deriving DecidableEq, Repr

/-- Coercion of one raw record to `Voter` with the remote strategy's
empty-string defaults and fresh poll state; the canvas photo crop is the
`crop` oracle, consulted only when photos were requested and a 4-element
bounding box is present (`cropImage` always resolves, never rejects). -/
def processRaw (crop : List ℚ → Str) (includePhotos : Bool) (pageNumber : Nat)
    (raw : VoterRawData) : Voter :=
  { sl_no := raw.sl_no.getD []
    epic_no := raw.epic_no.getD []
    name_en := raw.name_en.getD []
    name_te := raw.name_te.getD []
    relative_name := raw.relative_name.getD []
    house_no := raw.house_no.getD []
    age := raw.age.getD []
    gender := raw.gender.getD []
    assembly_name := raw.assembly_name.getD []
    parliament_name := raw.parliament_name.getD []
    polling_station_no := raw.polling_station_no.getD []
    photoBase64 :=
      (match raw.photo_box_2d with
       | some box => if includePhotos ∧ box.length = 4 then some (crop box) else none
       | none => none)
    originalPage := some pageNumber
    isVoted := false
    votedParty := none
    timestamp := none }

/-- The model rotation list of the remote strategy. -/
def FALLBACK_MODELS : List Str :=
  ["gemini-3-pro-preview".data, "gemini-2.5-flash".data, "gemini-2.0-flash".data]

/-- The retry budget of the remote strategy. -/
def maxRetries : Nat := 6

/-- The base backoff delay (milliseconds) of the remote strategy. -/
def baseDelay : ℚ := 1500

/-- The observable request/sleep trace of one run of the retry loop. -/
structure AttemptTrace where
  requests : List Str
  delays : List ℚ
deriving Repr

/-- The retry loop of `geminiService.extractVotersFromImage`.  `remaining`
counts the attempts still allowed (`maxRetries - attempt`, so the `while
(attempt < maxRetries)` guard is `remaining > 0`).  Each iteration selects
`FALLBACK_MODELS[attempt % FALLBACK_MODELS.length]`, issues one request whose
result is the per-attempt `outcome` oracle (success = the parsed raw-record
array; failure = any transport or JSON-parse error) and, on failure,
increments `attempt`, gives up with `[]` when the budget is exhausted, else
sleeps `baseDelay * attempt + jitter(attempt)` (the incremented, 1-based
attempt number; `jitter` abstracts `Math.random() * 500`) and retries.  The
trace records the model of every issued request and every sleep. -/
def attemptsFrom (outcome : Nat → Except Unit (List VoterRawData)) (jitter : Nat → ℚ)
    (crop : List ℚ → Str) (includePhotos : Bool) (pageNumber : Nat) :
    Nat → Nat → List Voter × AttemptTrace
  | _, 0 => ([], ⟨[], []⟩)
  | attempt, remaining + 1 =>
    let currentModel := FALLBACK_MODELS.getD (attempt % FALLBACK_MODELS.length) []
    match outcome attempt with
    | Except.ok rawData =>
      (rawData.map (processRaw crop includePhotos pageNumber), ⟨[currentModel], []⟩)
    | Except.error _ =>
      if remaining = 0 then ([], ⟨[currentModel], []⟩)
      else
        let d := baseDelay * (attempt + 1) + jitter (attempt + 1)
        let rest := attemptsFrom outcome jitter crop includePhotos pageNumber
          (attempt + 1) remaining
        (rest.1, ⟨currentModel :: rest.2.requests, d :: rest.2.delays⟩)

/-- `geminiService.extractVotersFromImage`: throws (`Except.error`) when the
API key is falsy (absent or empty), else runs the retry loop from attempt 0
with the full budget. -/
def remoteExtractVotersFromImage (apiKey : Option Str)
    (outcome : Nat → Except Unit (List VoterRawData)) (jitter : Nat → ℚ)
    (crop : List ℚ → Str) (includePhotos : Bool) (pageNumber : Nat) :
    Except Str (List Voter × AttemptTrace) :=
  match apiKey with
  | none =>
    Except.error "API Key is missing. Please check your environment configuration.".data
  | some k =>
    if k = [] then
      Except.error "API Key is missing. Please check your environment configuration.".data
    else
      Except.ok (attemptsFrom outcome jitter crop includePhotos pageNumber 0 maxRetries)
/-- C2: in the remote strategy with a configured key, when the first two
attempts fail (malformed JSON) and the third returns a valid single-element
array, the strategy returns exactly that one coerced record, issues exactly 3
requests — the three models of the rotation in order, the 3rd request using
model index `2 % 3` of the 3-model list, i.e. `gemini-2.0-flash` — and
between failed attempts sleeps `baseDelay * attemptNumber + jitter` with
`baseDelay = 1500` and `jitter ∈ [0, 500)`: the first sleep lies in
`[1500, 2000)` and the second in `[3000, 3500)`. -/
theorem C2_remote_retry_scenario (k : Str) (hk : k ≠ [])
    (outcome : Nat → Except Unit (List VoterRawData)) (jitter : Nat → ℚ)
    (crop : List ℚ → Str) (pageNumber : Nat) (raw : VoterRawData)
    (h0 : outcome 0 = Except.error ()) (h1 : outcome 1 = Except.error ())
    (h2 : outcome 2 = Except.ok [raw])
    (hj : ∀ i, 0 ≤ jitter i ∧ jitter i < 500) :
    remoteExtractVotersFromImage (some k) outcome jitter crop false pageNumber
      = Except.ok ([processRaw crop false pageNumber raw],
          ⟨FALLBACK_MODELS,
           [baseDelay * 1 + jitter 1, baseDelay * 2 + jitter 2]⟩) ∧
    FALLBACK_MODELS.length = 3 ∧
    FALLBACK_MODELS.getD (2 % FALLBACK_MODELS.length) [] = "gemini-2.0-flash".data ∧
    1500 ≤ baseDelay * 1 + jitter 1 ∧ baseDelay * 1 + jitter 1 < 2000 ∧
    3000 ≤ baseDelay * 2 + jitter 2 ∧ baseDelay * 2 + jitter 2 < 3500 := by
  refine ⟨?_, rfl, rfl, ?_, ?_, ?_, ?_⟩
  · have e2 : attemptsFrom outcome jitter crop false pageNumber 2 4
        = ([processRaw crop false pageNumber raw],
           ⟨["gemini-2.0-flash".data], []⟩) := by
      rw [attemptsFrom, h2]
      rfl
    have e1 : attemptsFrom outcome jitter crop false pageNumber 1 5
        = ([processRaw crop false pageNumber raw],
           ⟨["gemini-2.5-flash".data, "gemini-2.0-flash".data],
            [baseDelay * 2 + jitter 2]⟩) := by
      rw [attemptsFrom, h1]
      dsimp only
      rw [if_neg (by decide), e2]
      simp only [Prod.mk.injEq, AttemptTrace.mk.injEq, List.cons.injEq, FALLBACK_MODELS,
        List.getD_cons_succ, List.getD_cons_zero]
      norm_num
    have e0 : attemptsFrom outcome jitter crop false pageNumber 0 6
        = ([processRaw crop false pageNumber raw],
           ⟨FALLBACK_MODELS,
            [baseDelay * 1 + jitter 1, baseDelay * 2 + jitter 2]⟩) := by
      rw [show (6 : Nat) = 5 + 1 from rfl, attemptsFrom, h0]
      dsimp only
      rw [if_neg (by decide), e1]
      simp only [Prod.mk.injEq, AttemptTrace.mk.injEq, List.cons.injEq, FALLBACK_MODELS,
        List.getD_cons_succ, List.getD_cons_zero]
      norm_num
    rw [remoteExtractVotersFromImage]
    rw [if_neg hk]
    rw [show maxRetries = 6 from rfl, e0]
  · linarith [(hj 1).1, show baseDelay = 1500 from rfl]
  · linarith [(hj 1).2, show baseDelay = 1500 from rfl]
  · linarith [(hj 2).1, show baseDelay = 1500 from rfl]
  · linarith [(hj 2).2, show baseDelay = 1500 from rfl]

/-- A concrete raw record for the remote-strategy witnesses. -/
def rawEx : VoterRawData :=
  ⟨some "1".data, some "ABC1234567".data, some "John".data, none, none, none,
   none, none, none, none, none, none⟩

/-- A concrete per-attempt outcome: the first two attempts fail, the third
returns a single-element array. -/
def outcomeEx : Nat → Except Unit (List VoterRawData) :=
  fun i => if i = 2 then Except.ok [rawEx] else Except.error ()

/-- C2 (witness): the retry scenario at concrete inputs (zero jitter). -/
theorem C2_witness :
    remoteExtractVotersFromImage (some "key".data) outcomeEx (fun _ => 0)
        (fun _ => []) false 7
      = Except.ok ([processRaw (fun _ => []) false 7 rawEx],
          ⟨FALLBACK_MODELS, [baseDelay * 1 + 0, baseDelay * 2 + 0]⟩) :=
  (C2_remote_retry_scenario "key".data (by decide) outcomeEx (fun _ => 0)
    (fun _ => []) 7 rawEx rfl rfl rfl (fun i => ⟨le_refl 0, by norm_num⟩)).1

/-- C5 (counterexample): with the API key absent, the remote strategy throws
(the "API Key is missing" error) before any attempt, so the strategies do not
unconditionally "never throw" as claimed. -/
theorem C5_counterexample :
    remoteExtractVotersFromImage none (fun _ => Except.error ()) (fun _ => 0)
        (fun _ => []) false 3
      = Except.error "API Key is missing. Please check your environment configuration.".data :=
  rfl

lemma attemptsFrom_all_fail {outcome : Nat → Except Unit (List VoterRawData)}
    {jitter : Nat → ℚ} {crop : List ℚ → Str} {includePhotos : Bool}
    {pageNumber : Nat} (h : ∀ i, outcome i = Except.error ()) :
    ∀ (r a : Nat),
      (attemptsFrom outcome jitter crop includePhotos pageNumber a r).1 = [] := by
  intro r
  induction r with
  | zero => intro a; rfl
  | succ r ih =>
    intro a
    rw [attemptsFrom, h a]
    dsimp only
    split
    · rfl
    · exact ih (a + 1)

/-- C5 (amended): with a configured (non-falsy) API key the remote strategy
never throws — if every attempt fails it returns the empty list after
exhausting the retry budget — and the image-OCR strategy never throws for any
input: an engine/preprocessing/parse failure yields the empty list for the
page (totality elsewhere is by construction: both model functions are total). -/
theorem C5_never_throws_amended :
    (∀ (k : Str) (outcome : Nat → Except Unit (List VoterRawData))
        (jitter : Nat → ℚ) (crop : List ℚ → Str) (includePhotos : Bool)
        (pageNumber : Nat), k ≠ [] → (∀ i, outcome i = Except.error ()) →
      ∃ tr, remoteExtractVotersFromImage (some k) outcome jitter crop
          includePhotos pageNumber = Except.ok ([], tr)) ∧
    (∀ (crop : List ℚ → Str) (includePhotos : Bool) (e : Unit) (pageNumber : Nat),
      ocrExtractVotersFromImage crop includePhotos (Except.error e) pageNumber = []) := by
  constructor
  · intro k outcome jitter crop includePhotos pageNumber hk hfail
    refine ⟨(attemptsFrom outcome jitter crop includePhotos pageNumber 0 maxRetries).2, ?_⟩
    rw [remoteExtractVotersFromImage, if_neg hk]
    rw [show ([], (attemptsFrom outcome jitter crop includePhotos pageNumber 0 maxRetries).2)
        = attemptsFrom outcome jitter crop includePhotos pageNumber 0 maxRetries from ?_]
    · rw [← attemptsFrom_all_fail hfail maxRetries 0]
  · intro crop includePhotos e pageNumber
    rfl

/-- C5 (witness): the amended no-throw facts at concrete inputs. -/
theorem C5_witness :
    ("key".data ≠ [] ∧ ∀ i, (fun _ : Nat => Except.error () :
        Nat → Except Unit (List VoterRawData)) i = Except.error ()) ∧
    (∃ tr, remoteExtractVotersFromImage (some "key".data)
        (fun _ => Except.error ()) (fun _ => 0) (fun _ => []) false 3
      = Except.ok ([], tr)) ∧
    ocrExtractVotersFromImage (fun _ => []) false (Except.error ()) 3 = [] :=
  ⟨⟨by decide, fun _ => rfl⟩,
   C5_never_throws_amended.1 "key".data (fun _ => Except.error ()) (fun _ => 0)
     (fun _ => []) false 3 (by decide) (fun _ => rfl),
   C5_never_throws_amended.2 (fun _ => []) false () 3⟩
/-- The eligible page queue of `processPdfLocally`:
`Array.from({length: totalPages}, (_, i) => i + 1).slice(2)` — the 1-based
page list with the first two pages unconditionally dropped. -/
def pageQueue (totalPages : Nat) : List Nat :=
  ((List.range totalPages).map (fun i => i + 1)).drop 2

/-- The successive batches drained by `processBatch`
(`pageQueue.splice(0, concurrency)` until the queue is empty), fuel-indexed by
the queue length (exact for any positive concurrency; the UI only offers
2/5/10/20/30). -/
def batchesAux (concurrency : Nat) : Nat → List Nat → List (List Nat)
  | 0, _ => []
  | fuel + 1, q =>
    if q = [] then []
    else q.take concurrency :: batchesAux concurrency fuel (q.drop concurrency)

/-- All batches of a queue. -/
def batches (concurrency : Nat) (q : List Nat) : List (List Nat) :=
  batchesAux concurrency q.length q

/-- The aggregated voter collection of the local fallback: batches complete
strictly in sequence (`await Promise.all(promises)` separates consecutive
batches), and within one batch each page task appends its whole yield when it
completes, in an arbitrary completion order (a permutation of the batch).
`f` is the per-page yield (a failed page contributes `[]` via its own
`try`/`catch`). -/
def runLocalBatches (f : Nat → List Voter) (arrivals : List (List Nat)) :
    List Voter :=
  arrivals.flatMap (fun batchOrder => batchOrder.flatMap f)

/-- C3: the local-fallback coordinator always drops pages 1 and 2; for a
10-page document the eligible pages are 3..10 and with concurrency 2 they
form exactly 4 sequential batches of 2 (sequentiality is structural in
`runLocalBatches`: batch N+1's contribution follows all of batch N's); and
for any within-batch completion orders the final voter count equals the sum
of the per-page yields. -/
theorem C3_local_fallback_batches :
    (∀ totalPages : Nat, 1 ∉ pageQueue totalPages ∧ 2 ∉ pageQueue totalPages) ∧
    pageQueue 10 = [3, 4, 5, 6, 7, 8, 9, 10] ∧
    batches 2 (pageQueue 10) = [[3, 4], [5, 6], [7, 8], [9, 10]] ∧
    (∀ (f : Nat → List Voter) (arrivals : List (List Nat)),
      List.Forall₂ List.Perm arrivals (batches 2 (pageQueue 10)) →
      (runLocalBatches f arrivals).length
        = ((pageQueue 10).map (fun p => (f p).length)).sum) := by
  refine ⟨?_, by decide, by decide, ?_⟩
  · intro totalPages
    have hmem : ∀ x ∈ pageQueue totalPages, 3 ≤ x := by
      intro x hx
      rw [pageQueue, ← List.map_drop, List.mem_map] at hx
      obtain ⟨i, hi, rfl⟩ := hx
      rw [List.mem_drop_iff_getElem] at hi
      obtain ⟨j, hj, hji⟩ := hi
      rw [List.getElem_range] at hji
      omega
    exact ⟨fun h => by have := hmem 1 h; omega, fun h => by have := hmem 2 h; omega⟩
  · intro f arrivals harr
    rw [show batches 2 (pageQueue 10) = [[3, 4], [5, 6], [7, 8], [9, 10]] from by decide]
      at harr
    rcases harr with - | ⟨h1, harr⟩
    rcases harr with - | ⟨h2, harr⟩
    rcases harr with - | ⟨h3, harr⟩
    rcases harr with - | ⟨h4, harr⟩
    rcases harr with - | -
    rename_i o1 o2 o3 o4
    have l1 := (h1.flatMap_right f).length_eq
    have l2 := (h2.flatMap_right f).length_eq
    have l3 := (h3.flatMap_right f).length_eq
    have l4 := (h4.flatMap_right f).length_eq
    simp only [runLocalBatches, List.flatMap_cons, List.flatMap_nil,
      List.length_append, List.append_nil] at *
    simp only [show pageQueue 10 = [3, 4, 5, 6, 7, 8, 9, 10] from by decide,
      List.map_cons, List.map_nil, List.sum_cons, List.sum_nil]
    omega

/-- C3 (witness): the batching facts at a concrete per-page yield function
and a concrete within-batch completion order (each batch finishing in
reversed order). -/
theorem C3_witness :
    (1 ∉ pageQueue 10 ∧ 2 ∉ pageQueue 10) ∧
    List.Forall₂ List.Perm [[4, 3], [6, 5], [8, 7], [10, 9]]
      (batches 2 (pageQueue 10)) ∧
    (runLocalBatches (fun p => List.replicate p cexVoter)
        [[4, 3], [6, 5], [8, 7], [10, 9]]).length
      = ((pageQueue 10).map
          (fun p => ((fun p => List.replicate p cexVoter) p).length)).sum :=
  ⟨C3_local_fallback_batches.1 10,
   by
     rw [show batches 2 (pageQueue 10) = [[3, 4], [5, 6], [7, 8], [9, 10]] from by decide]
     refine .cons (by decide) (.cons (by decide) (.cons (by decide)
       (.cons (by decide) .nil)))
   ,
   C3_local_fallback_batches.2.2.2 (fun p => List.replicate p cexVoter)
     [[4, 3], [6, 5], [8, 7], [10, 9]]
     (by
       rw [show batches 2 (pageQueue 10) = [[3, 4], [5, 6], [7, 8], [9, 10]] from by decide]
       refine .cons (by decide) (.cons (by decide) (.cons (by decide)
         (.cons (by decide) .nil))))⟩
